import Mathlib

/-!
# Verification of the Oculus staging-to-warehouse synchronization engine

This file is a shallow embedding of the ETL core of the Oculus repository
(`oculus/database.py` and the watermark choreography of `oculus/tasks.py`)
together with proofs settling the specification claims about it.

Modelling conventions:

* SQL tables are Lean lists of typed rows; a database connection is a pair of
  database states (`committed`, `pending`): every `cursor.execute` that writes
  modifies `pending`, `conn.commit()` copies `pending` into `committed`, and
  `conn.rollback()` restores `pending` from `committed`.  Cursor reads (SELECT)
  see `pending`, i.e. the connection's own uncommitted writes.
* Python `None` for *string* values is identified with the empty string `""`
  (both are falsy in every guard the code uses on them); nullable numeric and
  timestamp columns are `Option Int`.  Timestamps are integers, `GETDATE()` /
  `datetime.now()` is an explicit `now`/clock argument.
* `datetime.fromtimestamp` is idealized over `ℚ` (exact seconds since epoch);
  Python's float division `/ 1000` becomes exact division in `ℚ`.
* Exceptions raised by `INSERT`/`MERGE` statements are driven by an explicit
  failure oracle `fails : String → String → Bool` (table name, row id); all
  other modelled operations are total.  A raised exception is propagated as a
  `RowOutcome.raised`/`Except.error` value.
* `move_data_to_dwh` dispatches on the `staging_table` argument into two row
  bodies (`dl.willhaben` and `dl.gebrauchtwagen`); the embedding gives each
  branch its own function over its own staging row type, which is what the
  dynamic `row_dict` holds in each branch.  The `last_updated_field` argument
  is always the tracking column `last_synced` (the only value the callers in
  `tasks.py` pass), so the embedding fixes it and keeps only the presence test
  `if last_sync_time and last_updated_field` as a test on the watermark.
* The Python function returns `None` on every path; since the specification
  claims it returns `{succeeded, skipped, failed}` counts, the embedded return
  value is typed `Option SyncCounts` so that the claim can be stated — the
  faithful value is `none` everywhere, mirroring the bare `return` statements.
-/

namespace Oculus

/-- Character-level split (kernel-computable version of `str.split(sep)`):
splits at every occurrence of `sep`. -/
def splitChars (sep : Char) : List Char → List (List Char)
  | [] => [[]]
  | c :: cs =>
    if c = sep then [] :: splitChars sep cs
    else
      match splitChars sep cs with
      | [] => [[c]]
      | p :: ps => (c :: p) :: ps

/-- `str.split(sep)` on strings. -/
def strSplit (sep : Char) (s : String) : List String :=
  (splitChars sep s.data).map String.mk

/-- `str.strip()` (kernel-computable). -/
def strStrip (s : String) : String :=
  String.mk (((s.data.dropWhile Char.isWhitespace).reverse.dropWhile Char.isWhitespace).reverse)

/-- `str.lower()` (kernel-computable, ASCII as in the source data). -/
def strLower (s : String) : String :=
  String.mk (s.data.map Char.toLower)

/-- Python `dict.get(k)` over an association-list mapping table (no default):
returns `none` when the key is absent. -/
def mappingGet (m : List (String × String)) (k : String) : Option String :=
  (m.find? (fun p => p.1 == k)).map (·.2)

/-- Python `dict.get(k, k)` — the mapping application used for make, model and
fuel: an unmapped value falls back to the raw value itself. -/
def mappingGetD (m : List (String × String)) (k : String) : String :=
  (mappingGet m k).getD k

/-- Python falsiness of an optional string (`None` or `""`). -/
def falsyO : Option String → Bool
  | none => true
  | some s => s == ""

/-- Python `x or d` for the optional integer `source_id` argument
(`source_id or 1` / `source_id or 2`): `None` and `0` are falsy. -/
def pyOrInt (x : Option Int) (d : Int) : Int :=
  match x with
  | none => d
  | some v => if v = 0 then d else v

/-- A dimension-table row: surrogate `id` plus the natural-key column
(`make_name`, `model_name`, `type`, `fuel_type`). -/
structure DimRow where
  id : Int
  key : String
deriving DecidableEq, Repr

/-- `Database.lookup(table, column, value)`: returns the `id` for `value` in a
reference table, `None` when the value is falsy or absent.  Performs no write. -/
def lookup (dim : List DimRow) (value : Option String) : Option Int :=
  if falsyO value then none
  else ((dim.find? (fun d => d.key == value.getD "")).map (·.id))

/-- `Database.lookup_or_insert(table, column, value)`: like `lookup`, but when
the value is absent a new row `(nextId, value)` is inserted (`OUTPUT
inserted.id`).  Returns the id, the possibly-extended table and the next free
surrogate. -/
def lookup_or_insert (dim : List DimRow) (nextId : Int) (value : Option String) :
    Option Int × List DimRow × Int :=
  if falsyO value then (none, dim, nextId)
  else
    match dim.find? (fun d => d.key == value.getD "") with
    | some d => (some d.id, dim, nextId)
    | none => (some nextId, dim ++ [⟨nextId, value.getD ""⟩], nextId + 1)

/-- `Database.convert_unix_to_datetime`: `None`/`0` (falsy) yields `None`;
values strictly above `10 ** 10` are treated as milliseconds (divided by
1000), everything else as seconds.  The resulting UTC instant is represented
by its exact seconds-since-epoch value. -/
def convert_unix_to_datetime (unix_time : Option Int) : Option ℚ :=
  match unix_time with
  | none => none
  | some t =>
    if t = 0 then none
    else if t > 10 ^ 10 then some ((t : ℚ) / 1000)
    else some (t : ℚ)

/-- A `dl.willhaben` staging row (the columns `move_data_to_dwh` reads). -/
structure RowW where
  id : String
  car_type : String
  make : String
  model : String
  year_model : Option Int := none
  transmission : Option Int := none
  mileage : Option Int := none
  noofseats : Option Int := none
  engine_effect : Option Int := none
  engine_fuel : Option Int := none
  no_of_owners : Option Int := none
  color : Option Int := none
  condition : Option Int := none
  price : Option Int := none
  warranty : Option Int := none
  published : Option Int := none
  last_updated : Option Int := none
  isprivate : Option Int := none
  coordinates : Option String := none
  address : Option String := none
  location : Option String := none
  postcode : Option String := none
  district : Option String := none
  state : Option String := none
  country : Option String := none
  specification : Option String := none
  description : Option String := none
  main_image_url : Option String := none
  seo_url : Option String := none
  last_synced : Option Int := none
deriving DecidableEq, Repr

/-- A `dl.gebrauchtwagen` staging row (the columns `move_data_to_dwh` reads). -/
structure RowG where
  id : String
  make : String
  model : String
  engine_fuel : String
  mileage : Option Int := none
  engine_effect : Option Int := none
  year_model : Option Int := none
  price : Option Int := none
  location : String := ""
  last_synced : Option Int := none
deriving DecidableEq, Repr

/-- A `dwh.willwagen` fact row.  Both feeds insert into the same table through
different column subsets; columns absent from an INSERT stay at their SQL NULL
default.  The IDENTITY surrogate is omitted: the code captures it into
`inserted_id` and never reads it again. -/
structure FactRow where
  willhaben_id : Option String := none
  gw_guid : Option String := none
  source_id : Int := 0
  make_id : Int := 0
  model_id : Int := 0
  year_model : Option Int := none
  transmission_id : Option Int := none
  mileage : Option Int := none
  noofseats : Option Int := none
  power_in_kw : Option Int := none
  engine_fuel_id : Option Int := none
  car_type_id : Option Int := none
  no_of_owners : Option Int := none
  color_id : Option Int := none
  condition_id : Option Int := none
  price : Option Int := none
  warranty : Option Bool := none
  published : Option ℚ := none
  last_updated : Option ℚ := none
  isprivate : Option Bool := none
deriving DecidableEq, Repr

/-- A `dwh.location` child row (union of the columns the two feeds insert). -/
structure LocationRow where
  willhaben_id : Option String := none
  gebrauchtwagen_guid : Option String := none
  address : Option String := none
  location : Option String := none
  postcode : Option String := none
  district : Option String := none
  state : Option String := none
  country : Option String := none
  longitude : Option String := none
  latitude : Option String := none
deriving DecidableEq, Repr

/-- A `dwh.specification` child row. -/
structure SpecRow where
  willhaben_id : String
  specification : Option String := none
deriving DecidableEq, Repr

/-- A `dwh.description` child row. -/
structure DescRow where
  willhaben_id : String
  description : Option String := none
deriving DecidableEq, Repr

/-- A `dwh.image_url` child row. -/
structure ImageRow where
  willhaben_id : String
  image_url : Option String := none
deriving DecidableEq, Repr

/-- A `dwh.seo_url` child row. -/
structure SeoRow where
  willhaben_id : String
  seo_url : Option String := none
deriving DecidableEq, Repr

/-- The database state touched by `move_data_to_dwh`: the two staging tables
and the warehouse fact/child tables. -/
structure Db where
  stagingW : List RowW := []
  stagingG : List RowG := []
  willwagen : List FactRow := []
  location : List LocationRow := []
  specification : List SpecRow := []
  description : List DescRow := []
  image_url : List ImageRow := []
  seo_url : List SeoRow := []
deriving DecidableEq, Repr

/-- A connection: the committed database plus the connection's transactional
view (committed data plus this transaction's uncommitted writes). -/
structure Conn where
  committed : Db
  pending : Db
deriving DecidableEq, Repr

/-- `self.conn.commit()`. -/
def Conn.commit (c : Conn) : Conn := ⟨c.pending, c.pending⟩

/-- `self.conn.rollback()`. -/
def Conn.rollback (c : Conn) : Conn := ⟨c.committed, c.committed⟩

/-- The `self.willhaben_mappings` dictionaries used by the `dl.willhaben`
branch. -/
structure WillhabenMappings where
  make_mapping : List (String × String) := []
  model_mapping : List (String × String) := []
  car_type_mapping : List (String × String) := []

/-- The `self.gebrauchtwagen_mappings` dictionaries used by the
`dl.gebrauchtwagen` branch. -/
structure GebrauchtwagenMappings where
  make_mapping : List (String × String) := []
  model_mapping : List (String × String) := []
  engine_fuel_mapping : List (String × String) := []

/-- The warehouse dimension tables `move_data_to_dwh` resolves against
(read-only inside the function). -/
structure Dims where
  make : List DimRow := []
  model : List DimRow := []
  car_type : List DimRow := []
  fuel : List DimRow := []

/-- Static context of a `dl.willhaben` run: the `transformations` argument (a
dictionary of per-field functions, applied to the row first), the mapping
dictionaries, the dimension tables, the `source_id` argument and the failure
oracle saying which INSERT statements raise. -/
structure CtxW where
  transform : RowW → RowW := id
  maps : WillhabenMappings := {}
  dims : Dims := {}
  sourceId : Option Int := none
  fails : String → String → Bool := fun _ _ => false

/-- Static context of a `dl.gebrauchtwagen` run. -/
structure CtxG where
  transform : RowG → RowG := id
  maps : GebrauchtwagenMappings := {}
  dims : Dims := {}
  sourceId : Option Int := none
  fails : String → String → Bool := fun _ _ => false

/-- Outcome of processing one staging row inside the loop. -/
inductive RowOutcome
  | skipped
  | done
  | truncated
  | raised (tbl : String)
deriving DecidableEq, Repr

/-- `INSERT INTO dwh.willwagen ...` (writes the transaction view only). -/
def insertFact (c : Conn) (f : FactRow) : Conn :=
  { c with pending := { c.pending with willwagen := c.pending.willwagen ++ [f] } }

/-- `INSERT INTO dwh.location ...` (gebrauchtwagen branch). -/
def insertLocation (c : Conn) (l : LocationRow) : Conn :=
  { c with pending := { c.pending with location := c.pending.location ++ [l] } }

/-- `insert_or_update("dwh.location", ..., keys=["willhaben_id"])`: MERGE keyed
on `willhaben_id` — update the non-key columns of a matched row (the
`gebrauchtwagen_guid` column is not in the source and is left alone), insert
otherwise. -/
def mergeLocation (c : Conn) (l : LocationRow) : Conn :=
  let tbl := c.pending.location
  let tbl2 :=
    if tbl.any (fun t => t.willhaben_id == l.willhaben_id) then
      tbl.map (fun t =>
        if t.willhaben_id == l.willhaben_id then
          { l with willhaben_id := t.willhaben_id,
                   gebrauchtwagen_guid := t.gebrauchtwagen_guid }
        else t)
    else tbl ++ [l]
  { c with pending := { c.pending with location := tbl2 } }

/-- `INSERT INTO dwh.specification ...`. -/
def insertSpec (c : Conn) (s : SpecRow) : Conn :=
  { c with pending := { c.pending with specification := c.pending.specification ++ [s] } }

/-- `INSERT INTO dwh.description ...`. -/
def insertDesc (c : Conn) (d : DescRow) : Conn :=
  { c with pending := { c.pending with description := c.pending.description ++ [d] } }

/-- `INSERT INTO dwh.image_url ...`. -/
def insertImage (c : Conn) (i : ImageRow) : Conn :=
  { c with pending := { c.pending with image_url := c.pending.image_url ++ [i] } }

/-- `INSERT INTO dwh.seo_url ...`. -/
def insertSeo (c : Conn) (s : SeoRow) : Conn :=
  { c with pending := { c.pending with seo_url := c.pending.seo_url ++ [s] } }

/-- `row_dict["coordinates"].split(",") if row_dict["coordinates"] else
[None, None]`, then indices `[0]` and `[1]`: a falsy value yields two `None`s,
a value without a comma makes the `[1]` access raise `IndexError`. -/
def coordsSplit (s : Option String) : Except String (Option String × Option String) :=
  if falsyO s then .ok (none, none)
  else
    match strSplit ',' (s.getD "") with
    | a :: b :: _ => .ok (some a, some b)
    | _ => .error "IndexError: coordinates"

/-- Truthiness-and-length test `transformed_location["postcode"] and
len(postcode) > 50` guarding the mid-row `continue`. -/
def postcodeTooLong (p : Option String) : Bool :=
  match p with
  | none => false
  | some s => s != "" && s.length > 50

/-- Dimension resolution of a (transformed) `dl.willhaben` row, in source
order: `car_type` through `willhaben_car_type_mapping.get(car_type)` (NO
pass-through default) then `dwh.car_type`; `make` through `.get(make, make)`
then `dwh.make`; `model` through `.get(model, model)` then `dwh.model`.
Returns the three surrogate ids, or `none` when the row is skipped. -/
def resolveW (ctx : CtxW) (r : RowW) : Option (Int × Int × Int) :=
  let tct := mappingGet ctx.maps.car_type_mapping r.car_type
  if falsyO tct then none
  else
    match lookup ctx.dims.car_type tct with
    | none => none
    | some ctId =>
      let tmk := mappingGetD ctx.maps.make_mapping r.make
      if tmk == "" then none
      else
        match lookup ctx.dims.make (some tmk) with
        | none => none
        | some mkId =>
          let tmd := mappingGetD ctx.maps.model_mapping r.model
          if tmd == "" then none
          else
            match lookup ctx.dims.model (some tmd) with
            | none => none
            | some mdId => some (ctId, mkId, mdId)

/-- The `transformed_willwagen` dictionary built for a `dl.willhaben` row. -/
def factRowW (ctx : CtxW) (r : RowW) (ctId mkId mdId : Int) : FactRow :=
  { willhaben_id := some r.id
    source_id := pyOrInt ctx.sourceId 1
    make_id := mkId
    model_id := mdId
    year_model := r.year_model
    transmission_id := r.transmission
    mileage := r.mileage
    noofseats := r.noofseats
    power_in_kw := r.engine_effect
    engine_fuel_id := r.engine_fuel
    car_type_id := some ctId
    no_of_owners := r.no_of_owners
    color_id := r.color
    condition_id := r.condition
    price := r.price
    warranty := some (r.warranty == some 1)
    published := convert_unix_to_datetime r.published
    last_updated := convert_unix_to_datetime r.last_updated
    isprivate := some (r.isprivate == some 1) }

/-- The `try: ... except: rollback; raise finally: commit` block around the
child-row inserts of a `dl.willhaben` row.  `c` already holds the uncommitted
fact insert.  The `continue` on an over-long postcode also runs the `finally`
commit.  Every exception path nets out to a rollback of the row's unit of work
followed by propagation. -/
def childPhaseW (ctx : CtxW) (r : RowW) (c : Conn) : Conn × RowOutcome :=
  match coordsSplit r.coordinates with
  | .error m => (Conn.rollback c, .raised m)
  | .ok (lon, lat) =>
    let loc : LocationRow :=
      { willhaben_id := some r.id, address := r.address, location := r.location
        postcode := r.postcode, district := r.district, state := r.state
        country := r.country, longitude := lon, latitude := lat }
    if postcodeTooLong loc.postcode then (Conn.commit c, .truncated)
    else if ctx.fails "dwh.location" r.id then (Conn.rollback c, .raised "dwh.location")
    else
      let c := mergeLocation c loc
      if ctx.fails "dwh.specification" r.id then (Conn.rollback c, .raised "dwh.specification")
      else
        let c := insertSpec c { willhaben_id := r.id, specification := r.specification }
        if ctx.fails "dwh.description" r.id then (Conn.rollback c, .raised "dwh.description")
        else
          let c := insertDesc c { willhaben_id := r.id, description := r.description }
          if ctx.fails "dwh.image_url" r.id then (Conn.rollback c, .raised "dwh.image_url")
          else
            let c := insertImage c { willhaben_id := r.id, image_url := r.main_image_url }
            if ctx.fails "dwh.seo_url" r.id then (Conn.rollback c, .raised "dwh.seo_url")
            else
              let c := insertSeo c { willhaben_id := r.id, seo_url := r.seo_url }
              (Conn.commit c, .done)

/-- One iteration of the `for row in rows` loop for `dl.willhaben`: apply the
`transformations`, resolve dimensions (skip on failure), check for a duplicate
`willhaben_id` in the fact table (skip), insert the fact row, then run the
child-insert block. -/
def processRowW (ctx : CtxW) (conn : Conn) (r0 : RowW) : Conn × RowOutcome :=
  let r := ctx.transform r0
  match resolveW ctx r with
  | none => (conn, .skipped)
  | some (ctId, mkId, mdId) =>
    if conn.pending.willwagen.any (fun f => f.willhaben_id == some r.id) then
      (conn, .skipped)
    else if ctx.fails "dwh.willwagen" r.id then
      (Conn.rollback conn, .raised "dwh.willwagen")
    else
      childPhaseW ctx r (insertFact conn (factRowW ctx r ctId mkId mdId))

/-- The row loop: a raised exception aborts it (the remaining rows are not
visited), anything else continues. -/
def runRowsW (ctx : CtxW) : List RowW → Conn → Conn × Except String Unit
  | [], conn => (conn, .ok ())
  | r :: rest, conn =>
    match processRowW ctx conn r with
    | (c, .raised m) => (c, .error m)
    | (c, _) => runRowsW ctx rest c

/-- The delta SELECT: with a watermark, only rows whose tracking column
strictly exceeds it (SQL `NULL > x` is not true); without one, all rows. -/
def selectDeltaW (lastSync : Option Int) (rows : List RowW) : List RowW :=
  match lastSync with
  | some w => rows.filter (fun r =>
      match r.last_synced with
      | some t => w < t
      | none => false)
  | none => rows

/-- `DELETE FROM dl.willhaben`. -/
def deleteStagingW (c : Conn) : Conn :=
  { c with pending := { c.pending with stagingW := [] } }

/-- The post-loop `UPDATE staging SET last_synced = GETDATE() WHERE
last_synced IS NULL OR last_synced > %s`. -/
def updateStagingLastSyncedW (c : Conn) (w now : Int) : Conn :=
  { c with pending := { c.pending with stagingW := c.pending.stagingW.map (fun r =>
      match r.last_synced with
      | none => { r with last_synced := some now }
      | some t => if w < t then { r with last_synced := some now } else r) } }

/-- The spec's claimed result record for `run_sync`. -/
structure SyncCounts where
  succeeded : Int
  skipped : Int
  failed : Int
deriving DecidableEq, Repr

/-- Result of a `move_data_to_dwh` call: the connection afterwards and either
the propagated exception or the Python return value (always `None` — typed
`Option SyncCounts` so the spec's claimed contract can be stated). -/
structure MoveResult where
  conn : Conn
  result : Except String (Option SyncCounts)
deriving Repr

/-- `Database.move_data_to_dwh(staging_table="dl.willhaben", ...)`: select the
delta rows, return early when there are none, run the row loop (an exception
hits the outer handler: rollback and re-raise), then optionally `DELETE` the
staging table, refresh the staging tracking column when a watermark was given,
and commit. -/
def move_data_to_dwh_willhaben (ctx : CtxW) (deleteFromStaging : Bool)
    (lastSync : Option Int) (now : Int) (conn : Conn) : MoveResult :=
  let rows := selectDeltaW lastSync conn.pending.stagingW
  if rows.isEmpty then ⟨conn, .ok none⟩
  else
    match runRowsW ctx rows conn with
    | (c, .error m) => ⟨Conn.rollback c, .error m⟩
    | (c, .ok ()) =>
      let c := if deleteFromStaging then deleteStagingW c else c
      let c := match lastSync with
        | some w => updateStagingLastSyncedW c w now
        | none => c
      ⟨Conn.commit c, .ok none⟩

/-- Joining with a separator (kernel-computable `sep.join(parts)`). -/
def joinWith (sep : String) : List String → String
  | [] => ""
  | [a] => a
  | a :: rest => a ++ sep ++ joinWith sep rest

/-- Python `location.split(" ", 1)`: split at the first space only. -/
def splitFirstSpace (s : String) : List String :=
  match strSplit ' ' s with
  | [] => [s]
  | [a] => [a]
  | a :: rest => [a, joinWith " " rest]

/-- Dimension resolution of a (transformed) `dl.gebrauchtwagen` row, in source
order: `make` via `.get(make, make)` then `dwh.make`; an explicit
empty/whitespace check on `model`, then `.get(model, model)` and `dwh.model`;
the same for `engine_fuel` against `dwh.fuel`.  All three mappings fall back
to the raw value. -/
def resolveG (ctx : CtxG) (r : RowG) : Option (Int × Int × Int) :=
  let tmk := mappingGetD ctx.maps.make_mapping r.make
  if tmk == "" then none
  else
    match lookup ctx.dims.make (some tmk) with
    | none => none
    | some mkId =>
      if r.model == "" || strStrip r.model == "" then none
      else
        let tmd := mappingGetD ctx.maps.model_mapping r.model
        if tmd == "" then none
        else
          match lookup ctx.dims.model (some tmd) with
          | none => none
          | some mdId =>
            if r.engine_fuel == "" || strStrip r.engine_fuel == "" then none
            else
              let tf := mappingGetD ctx.maps.engine_fuel_mapping r.engine_fuel
              if tf == "" then none
              else
                match lookup ctx.dims.fuel (some tf) with
                | none => none
                | some fId => some (mkId, mdId, fId)

/-- The `transformed_willwagen` dictionary built for a `dl.gebrauchtwagen`
row (columns not in the dictionary keep their NULL default). -/
def factRowG (ctx : CtxG) (r : RowG) (mkId mdId fId : Int) : FactRow :=
  { gw_guid := some r.id
    source_id := pyOrInt ctx.sourceId 2
    make_id := mkId
    model_id := mdId
    mileage := r.mileage
    power_in_kw := r.engine_effect
    engine_fuel_id := some fId
    year_model := r.year_model
    price := r.price }

/-- One iteration of the `for row in rows` loop for `dl.gebrauchtwagen`:
resolve dimensions (skip on failure), check for a duplicate `gw_guid` (skip),
insert the fact row and the location child row.  There is no per-row
`try`/`commit` in this branch: an insert failure propagates to the outer
handler, and nothing is committed until after the loop. -/
def processRowG (ctx : CtxG) (conn : Conn) (r0 : RowG) : Conn × RowOutcome :=
  let r := ctx.transform r0
  match resolveG ctx r with
  | none => (conn, .skipped)
  | some (mkId, mdId, fId) =>
    if conn.pending.willwagen.any (fun f => f.gw_guid == some r.id) then
      (conn, .skipped)
    else if ctx.fails "dwh.willwagen" r.id then
      (Conn.rollback conn, .raised "dwh.willwagen")
    else
      let c1 := insertFact conn (factRowG ctx r mkId mdId fId)
      let parts := splitFirstSpace r.location
      let pc := if parts.length > 1 then parts.get? 0 else none
      let city := if parts.length > 1 then parts.get? 1 else none
      if ctx.fails "dwh.location" r.id then (Conn.rollback c1, .raised "dwh.location")
      else
        (insertLocation c1
          { gebrauchtwagen_guid := some r.id, postcode := pc, location := city }, .done)

/-- The row loop for `dl.gebrauchtwagen`. -/
def runRowsG (ctx : CtxG) : List RowG → Conn → Conn × Except String Unit
  | [], conn => (conn, .ok ())
  | r :: rest, conn =>
    match processRowG ctx conn r with
    | (c, .raised m) => (c, .error m)
    | (c, _) => runRowsG ctx rest c

/-- The delta SELECT over `dl.gebrauchtwagen`. -/
def selectDeltaG (lastSync : Option Int) (rows : List RowG) : List RowG :=
  match lastSync with
  | some w => rows.filter (fun r =>
      match r.last_synced with
      | some t => w < t
      | none => false)
  | none => rows

/-- `DELETE FROM dl.gebrauchtwagen`. -/
def deleteStagingG (c : Conn) : Conn :=
  { c with pending := { c.pending with stagingG := [] } }

/-- The post-loop tracking-column refresh on `dl.gebrauchtwagen`. -/
def updateStagingLastSyncedG (c : Conn) (w now : Int) : Conn :=
  { c with pending := { c.pending with stagingG := c.pending.stagingG.map (fun r =>
      match r.last_synced with
      | none => { r with last_synced := some now }
      | some t => if w < t then { r with last_synced := some now } else r) } }

/-- `Database.move_data_to_dwh(staging_table="dl.gebrauchtwagen", ...)`. -/
def move_data_to_dwh_gebrauchtwagen (ctx : CtxG) (deleteFromStaging : Bool)
    (lastSync : Option Int) (now : Int) (conn : Conn) : MoveResult :=
  let rows := selectDeltaG lastSync conn.pending.stagingG
  if rows.isEmpty then ⟨conn, .ok none⟩
  else
    match runRowsG ctx rows conn with
    | (c, .error m) => ⟨Conn.rollback c, .error m⟩
    | (c, .ok ()) =>
      let c := if deleteFromStaging then deleteStagingG c else c
      let c := match lastSync with
        | some w => updateStagingLastSyncedG c w now
        | none => c
      ⟨Conn.commit c, .ok none⟩

/-! ## Sync log and the watermark choreography of `move_data_to_dwh_task` -/

/-- `Database.get_last_sync_time`: read `dwh.sync_log` (association list keyed
by table name). -/
def get_last_sync_time (log : List (String × Int)) (tbl : String) : Option Int :=
  (log.find? (fun p => p.1 == tbl)).map (·.2)

/-- `Database.update_sync_time`: MERGE into `dwh.sync_log` keyed on
`table_name` — update when matched, insert otherwise. -/
def update_sync_time (log : List (String × Int)) (tbl : String) (time : Int) :
    List (String × Int) :=
  if log.any (fun p => p.1 == tbl) then
    log.map (fun p => if p.1 == tbl then (p.1, time) else p)
  else log ++ [(tbl, time)]

/-- Wall-clock model of one iteration of the per-table loop in
`move_data_to_dwh_task` (and of the two fact-table calls that follow it, which
have the same shape): `get_last_sync_time`, then the mover call — during which
the clock advances by `dur` — then `update_sync_time(table, datetime.now())`,
where `datetime.now()` is evaluated only after the mover has returned.  The
state is `(clock, sync_log)`; the start-of-run instant is the incoming clock. -/
def syncTableStep (dur : Int) (tbl : String) (st : Int × List (String × Int)) :
    Int × List (String × Int) :=
  let (clock, log) := st
  let _lastSync := get_last_sync_time log tbl
  let clockAfterMove := clock + dur
  (clockAfterMove, update_sync_time log tbl clockAfterMove)

/-- The source tables `move_data_to_dwh_task` synchronizes, in order: the nine
reference tables of `tables_to_sync`, then the two staging fact feeds. -/
def tablesToSync : List String :=
  ["dl.make", "dl.model", "dl.exterior_colour_main", "dl.equipment_search",
   "dl.transmission", "dl.motor_condition", "dl.car_type", "dl.engine_fuel",
   "dl.equipment", "dl.willhaben", "dl.gebrauchtwagen"]

/-- The watermark choreography of a whole `move_data_to_dwh_task` run:
fold the per-table step over `tablesToSync`, `durs` giving each mover call's
duration. -/
def moveTaskWatermarks (durs : String → Int) (st : Int × List (String × Int)) :
    Int × List (String × Int) :=
  tablesToSync.foldl (fun acc tbl => syncTableStep (durs tbl) tbl acc) st

/-! ## General lemmas about the embedding -/

/-- The external willhaben ids present in the fact table. -/
def factWids (d : Db) : List String := d.willwagen.filterMap (·.willhaben_id)

/-- The external gebrauchtwagen ids present in the fact table. -/
def factGids (d : Db) : List String := d.willwagen.filterMap (·.gw_guid)

theorem mem_factWids {d : Db} {a : String} :
    a ∈ factWids d ↔ ∃ f ∈ d.willwagen, f.willhaben_id = some a := by
  simp [factWids, List.mem_filterMap]

theorem factWids_append (w1 w2 : List FactRow) :
    (w1 ++ w2).filterMap (·.willhaben_id) =
      w1.filterMap (·.willhaben_id) ++ w2.filterMap (·.willhaben_id) := by
  simp [List.filterMap_append]

/-- A row whose dimension resolution fails is skipped with no effect at all on
the connection. -/
theorem processRowW_resolve_skip (ctx : CtxW) (conn : Conn) (r0 : RowW)
    (h : resolveW ctx (ctx.transform r0) = none) :
    processRowW ctx conn r0 = (conn, .skipped) := by
  simp [processRowW, h]

/-- A row whose (transformed) external id already appears in the fact table is
skipped with no effect at all on the connection — the duplicate check matches
on `willhaben_id` alone. -/
theorem processRowW_dup_skip (ctx : CtxW) (conn : Conn) (r0 : RowW)
    (h : (ctx.transform r0).id ∈ factWids conn.pending) :
    processRowW ctx conn r0 = (conn, .skipped) := by
  rcases mem_factWids.mp h with ⟨f, hf, hid⟩
  have hany : conn.pending.willwagen.any
      (fun f => f.willhaben_id == some (ctx.transform r0).id) = true := by
    rw [List.any_eq_true]
    exact ⟨f, hf, by simp [hid]⟩
  unfold processRowW
  rcases hres : resolveW ctx (ctx.transform r0) with _ | ⟨ctId, mkId, mdId⟩
  · simp [hres]
  · simp [hres, hany]

/-- Shape of the child-insert block: it either raises — in which case the
connection is exactly rolled back to what was committed before the row — or
commits a connection that differs from its input only in warehouse child
tables (the fact list and the staging tables are untouched by it). -/
theorem childPhaseW_cases (ctx : CtxW) (r : RowW) (c : Conn) :
    (∃ m, childPhaseW ctx r c = (Conn.rollback c, .raised m)) ∨
    (∃ c2 o, childPhaseW ctx r c = (Conn.commit c2, o) ∧ (o = .done ∨ o = .truncated) ∧
      c2.committed = c.committed ∧
      c2.pending.willwagen = c.pending.willwagen ∧
      c2.pending.stagingW = c.pending.stagingW ∧
      c2.pending.stagingG = c.pending.stagingG) := by
  unfold childPhaseW
  rcases hc : coordsSplit r.coordinates with m | ⟨lon, lat⟩
  · exact Or.inl ⟨m, rfl⟩
  · by_cases hpc : postcodeTooLong r.postcode
    · exact Or.inr ⟨c, .truncated, by simp [hpc], Or.inr rfl, rfl, rfl, rfl, rfl⟩
    · by_cases h1 : ctx.fails "dwh.location" r.id
      · exact Or.inl ⟨"dwh.location", by simp [hpc, h1]⟩
      · by_cases h2 : ctx.fails "dwh.specification" r.id
        · exact Or.inl ⟨"dwh.specification", by simp [hpc, h1, h2, Conn.rollback, mergeLocation]⟩
        · by_cases h3 : ctx.fails "dwh.description" r.id
          · exact Or.inl ⟨"dwh.description",
              by simp [hpc, h1, h2, h3, Conn.rollback, mergeLocation, insertSpec]⟩
          · by_cases h4 : ctx.fails "dwh.image_url" r.id
            · exact Or.inl ⟨"dwh.image_url",
                by simp [hpc, h1, h2, h3, h4, Conn.rollback, mergeLocation, insertSpec,
                  insertDesc]⟩
            · by_cases h5 : ctx.fails "dwh.seo_url" r.id
              · exact Or.inl ⟨"dwh.seo_url",
                  by simp [hpc, h1, h2, h3, h4, h5, Conn.rollback, mergeLocation, insertSpec,
                    insertDesc, insertImage]⟩
              · exact Or.inr ⟨insertSeo (insertImage (insertDesc (insertSpec (mergeLocation c
                    { willhaben_id := some r.id, address := r.address, location := r.location,
                      postcode := r.postcode, district := r.district, state := r.state,
                      country := r.country, longitude := lon, latitude := lat })
                    { willhaben_id := r.id, specification := r.specification })
                    { willhaben_id := r.id, description := r.description })
                    { willhaben_id := r.id, image_url := r.main_image_url })
                    { willhaben_id := r.id, seo_url := r.seo_url }, .done,
                  by simp [hpc, h1, h2, h3, h4, h5], Or.inl rfl, rfl, rfl, rfl, rfl⟩

/-- Shape of one `dl.willhaben` loop iteration: either a pure skip, or a raise
that nets out to a rollback of everything uncommitted, or a committed step
that appends exactly one fact row carrying the row's external id (which was
checked absent first) and leaves the staging tables alone. -/
theorem processRowW_cases (ctx : CtxW) (conn : Conn) (r0 : RowW) :
    processRowW ctx conn r0 = (conn, .skipped) ∨
    (∃ m, processRowW ctx conn r0 = (Conn.rollback conn, .raised m)) ∨
    (∃ c2 o, processRowW ctx conn r0 = (c2, o) ∧ (o = .done ∨ o = .truncated) ∧
      c2.committed = c2.pending ∧
      c2.pending.stagingW = conn.pending.stagingW ∧
      c2.pending.stagingG = conn.pending.stagingG ∧
      (ctx.transform r0).id ∉ factWids conn.pending ∧
      (∃ f, f.willhaben_id = some (ctx.transform r0).id ∧ f.gw_guid = none ∧
        c2.pending.willwagen = conn.pending.willwagen ++ [f])) := by
  unfold processRowW
  rcases hres : resolveW ctx (ctx.transform r0) with _ | ⟨ctId, mkId, mdId⟩
  · exact Or.inl (by simp [hres])
  · by_cases hdup : conn.pending.willwagen.any
        (fun f => f.willhaben_id == some (ctx.transform r0).id)
    · exact Or.inl (by simp [hres, hdup])
    · have hnotin : (ctx.transform r0).id ∉ factWids conn.pending := by
        intro hmem
        rcases mem_factWids.mp hmem with ⟨f, hf, hid⟩
        exact hdup (List.any_eq_true.mpr ⟨f, hf, by simp [hid]⟩)
      by_cases hfail : ctx.fails "dwh.willwagen" (ctx.transform r0).id
      · exact Or.inr (Or.inl ⟨"dwh.willwagen", by simp [hres, hdup, hfail]⟩)
      · rcases childPhaseW_cases ctx (ctx.transform r0)
            (insertFact conn (factRowW ctx (ctx.transform r0) ctId mkId mdId)) with
          ⟨m, hcp⟩ | ⟨c2, o, hcp, ho, hcomm, hww, hsw, hsg⟩
        · refine Or.inr (Or.inl ⟨m, ?_⟩)
          simp only [hres, hdup, hfail]
          rw [hcp]
          simp [Conn.rollback, insertFact]
        · refine Or.inr (Or.inr ⟨Conn.commit c2, o, ?_, ho, rfl, ?_, ?_, hnotin, ?_⟩)
          · simp only [hres, hdup, hfail]
            simp [hcp]
          · simpa [Conn.commit, insertFact] using hsw
          · simpa [Conn.commit, insertFact] using hsg
          · exact ⟨factRowW ctx (ctx.transform r0) ctId mkId mdId, rfl, rfl,
              by simpa [Conn.commit, insertFact] using hww⟩

/-- A skip can only come from failed dimension resolution or from the
duplicate check. -/
theorem processRowW_skip_inversion (ctx : CtxW) (conn conn2 : Conn) (r0 : RowW)
    (h : processRowW ctx conn r0 = (conn2, .skipped)) :
    resolveW ctx (ctx.transform r0) = none ∨ (ctx.transform r0).id ∈ factWids conn.pending := by
  rcases hres : resolveW ctx (ctx.transform r0) with _ | ⟨ctId, mkId, mdId⟩
  · exact Or.inl rfl
  · right
    simp only [processRowW] at h
    rw [hres] at h
    by_cases hdup : conn.pending.willwagen.any
        (fun f => f.willhaben_id == some (ctx.transform r0).id)
    · rcases List.any_eq_true.mp hdup with ⟨f, hf, hbeq⟩
      exact mem_factWids.mpr ⟨f, hf, by simpa using hbeq⟩
    · exfalso
      by_cases hfail : ctx.fails "dwh.willwagen" (ctx.transform r0).id
      · simp [hdup, hfail, Prod.ext_iff] at h
      · rcases childPhaseW_cases ctx (ctx.transform r0)
            (insertFact conn (factRowW ctx (ctx.transform r0) ctId mkId mdId)) with
          ⟨m, hcp⟩ | ⟨c2, o, hcp, ho, _⟩
        · simp [hdup, hfail, hcp, Prod.ext_iff] at h
        · rcases ho with rfl | rfl <;> simp [hdup, hfail, hcp, Prod.ext_iff] at h

/-- A raised row aborts the loop at once: the remaining rows are not visited
and the exception is propagated with the rolled-back connection. -/
theorem runRowsW_abort (ctx : CtxW) (conn c : Conn) (r0 : RowW) (rest : List RowW)
    (m : String) (h : processRowW ctx conn r0 = (c, .raised m)) :
    runRowsW ctx (r0 :: rest) conn = (c, .error m) := by
  simp [runRowsW, h]

/-- A raise nets out to a rollback: the failing row's unit of work is undone
and nothing committed before it is touched. -/
theorem processRowW_raised_rollback (ctx : CtxW) (conn c : Conn) (r0 : RowW) (m : String)
    (h : processRowW ctx conn r0 = (c, .raised m)) : c = Conn.rollback conn := by
  rcases processRowW_cases ctx conn r0 with hsk | ⟨m2, hr⟩ | ⟨c2, o, heq, ho, _⟩
  · rw [hsk] at h
    simp [Prod.ext_iff] at h
  · rw [hr] at h
    exact ((Prod.ext_iff.mp h).1).symm
  · rw [heq] at h
    rcases ho with rfl | rfl <;> simp [Prod.ext_iff] at h

/-- After a loop that completed without raising: every processed row either
failed resolution (statically) or has its external id in the fact table; the
fact table only grew; the staging tables are untouched. -/
theorem runRowsW_fate (ctx : CtxW) :
    ∀ (rows : List RowW) (conn cf : Conn), runRowsW ctx rows conn = (cf, .ok ()) →
      (∀ r ∈ rows, resolveW ctx (ctx.transform r) = none ∨
        (ctx.transform r).id ∈ factWids cf.pending) ∧
      (∃ t, cf.pending.willwagen = conn.pending.willwagen ++ t) ∧
      cf.pending.stagingW = conn.pending.stagingW ∧
      cf.pending.stagingG = conn.pending.stagingG := by
  intro rows
  induction rows with
  | nil =>
    intro conn cf h
    simp [runRowsW, Prod.ext_iff] at h
    subst h
    exact ⟨by simp, ⟨[], by simp⟩, rfl, rfl⟩
  | cons r rest ih =>
    intro conn cf h
    rcases processRowW_cases ctx conn r with hsk | ⟨m, hr⟩ | ⟨c2, o, heq, ho, _, hsw, hsg, _, f, hfid, _, hww⟩
    · rw [runRowsW, hsk] at h
      rcases ih conn cf h with ⟨hfate, hext, hs1, hs2⟩
      refine ⟨?_, hext, hs1, hs2⟩
      intro x hx
      rcases List.mem_cons.mp hx with rfl | hx2
      · rcases processRowW_skip_inversion ctx conn conn x hsk with hn | hmem
        · exact Or.inl hn
        · rcases hext with ⟨t, ht⟩
          refine Or.inr ?_
          have : factWids cf.pending = factWids conn.pending ++ t.filterMap (·.willhaben_id) := by
            rw [factWids, ht, factWids_append]
            rfl
          rw [this]
          exact List.mem_append_left _ hmem
      · exact hfate x hx2
    · rw [runRowsW, hr] at h
      simp [Prod.ext_iff] at h
    · rw [runRowsW, heq] at h
      have hrec : runRowsW ctx rest c2 = (cf, .ok ()) := by
        rcases ho with rfl | rfl <;> simpa using h
      rcases ih c2 cf hrec with ⟨hfate, ⟨t, ht⟩, hs1, hs2⟩
      refine ⟨?_, ⟨[f] ++ t, by rw [ht, hww]; simp⟩, by rw [hs1, hsw], by rw [hs2, hsg]⟩
      intro x hx
      rcases List.mem_cons.mp hx with rfl | hx2
      · refine Or.inr ?_
        have hmem : (ctx.transform x).id ∈ factWids c2.pending := by
          rw [factWids, hww, factWids_append]
          simp [hfid]
        have : factWids cf.pending = factWids c2.pending ++ t.filterMap (·.willhaben_id) := by
          rw [factWids, ht, factWids_append]
          rfl
        rw [this]
        exact List.mem_append_left _ hmem
      · exact hfate x hx2

/-- When every row individually skips without touching the connection, the
loop is a no-op. -/
theorem runRowsW_all_skip (ctx : CtxW) :
    ∀ (rows : List RowW) (conn : Conn),
      (∀ r ∈ rows, processRowW ctx conn r = (conn, .skipped)) →
      runRowsW ctx rows conn = (conn, .ok ()) := by
  intro rows
  induction rows with
  | nil => intro conn _; rfl
  | cons r rest ih =>
    intro conn h
    rw [runRowsW, h r (List.mem_cons_self r rest)]
    exact ih conn (fun x hx => h x (List.mem_cons_of_mem r hx))

/-- The loop preserves distinctness of the external willhaben ids in the fact
table (in both the transaction view and the committed database), whether it
completes or aborts. -/
theorem runRowsW_nodup (ctx : CtxW) :
    ∀ (rows : List RowW) (conn c : Conn) (e : Except String Unit),
      runRowsW ctx rows conn = (c, e) →
      (factWids conn.pending).Nodup → (factWids conn.committed).Nodup →
      (factWids c.pending).Nodup ∧ (factWids c.committed).Nodup := by
  intro rows
  induction rows with
  | nil =>
    intro conn c e h hp hc
    simp [runRowsW, Prod.ext_iff] at h
    rw [← h.1]
    exact ⟨hp, hc⟩
  | cons r rest ih =>
    intro conn c e h hp hc
    rcases processRowW_cases ctx conn r with hsk | ⟨m, hr⟩ | ⟨c2, o, heq, ho, hco, _, _, hnotin, f, hfid, hgw, hww⟩
    · rw [runRowsW, hsk] at h
      exact ih conn c e h hp hc
    · rw [runRowsW, hr] at h
      simp [Prod.ext_iff] at h
      rw [← h.1]
      exact ⟨hc, hc⟩
    · rw [runRowsW, heq] at h
      have hrec : runRowsW ctx rest c2 = (c, e) := by
        rcases ho with rfl | rfl <;> simpa using h
      have hp2 : (factWids c2.pending).Nodup := by
        rw [factWids, hww, factWids_append]
        have : List.filterMap (fun x => x.willhaben_id) [f] = [(ctx.transform r).id] := by
          simp [hfid]
        rw [this]
        simp only [List.nodup_append]
        refine ⟨hp, List.nodup_singleton _, ?_⟩
        intro a ha hmem
        rcases List.mem_singleton.mp hmem with rfl
        exact hnotin ha
      exact ih c2 c e hrec hp2 (hco ▸ hp2)

/-- The loop never touches the staging tables: starting from a connection
whose transaction view agrees with the committed database on them, both still
hold the original staging rows afterwards, on every exit path. -/
theorem runRowsW_staging_frame (ctx : CtxW) :
    ∀ (rows : List RowW) (conn : Conn),
      conn.committed.stagingW = conn.pending.stagingW →
      conn.committed.stagingG = conn.pending.stagingG →
      ((runRowsW ctx rows conn).1.pending.stagingW = conn.pending.stagingW ∧
       (runRowsW ctx rows conn).1.committed.stagingW = conn.pending.stagingW ∧
       (runRowsW ctx rows conn).1.pending.stagingG = conn.pending.stagingG ∧
       (runRowsW ctx rows conn).1.committed.stagingG = conn.pending.stagingG) := by
  intro rows
  induction rows with
  | nil => intro conn h1 h2; exact ⟨rfl, h1, rfl, h2⟩
  | cons r rest ih =>
    intro conn h1 h2
    rcases processRowW_cases ctx conn r with hsk | ⟨m, hr⟩ | ⟨c2, o, heq, ho, hco, hsw, hsg, _⟩
    · rw [runRowsW, hsk]
      exact ih conn h1 h2
    · rw [runRowsW, hr]
      exact ⟨h1, h1, h2, h2⟩
    · rw [runRowsW, heq]
      have hdone : (match (c2, o) with
          | (c, RowOutcome.raised m) => (c, Except.error m)
          | (c, _) => runRowsW ctx rest c) = runRowsW ctx rest c2 := by
        rcases ho with rfl | rfl <;> rfl
      rw [hdone]
      have := ih c2 (by rw [hco, hsw]) (by rw [hco, hsg])
      rw [hsw, hsg] at this
      exact this

/-- Fact rows committed by earlier iterations survive every later iteration:
the committed fact table only ever grows during the loop, also when it aborts
with an exception. -/
theorem runRowsW_committed_extends (ctx : CtxW) :
    ∀ (rows : List RowW) (conn : Conn) (s : List FactRow),
      conn.pending.willwagen = conn.committed.willwagen ++ s →
      ∃ t, (runRowsW ctx rows conn).1.committed.willwagen =
        conn.committed.willwagen ++ t := by
  intro rows
  induction rows with
  | nil => intro conn s _; exact ⟨[], by simp [runRowsW]⟩
  | cons r rest ih =>
    intro conn s hext
    rcases processRowW_cases ctx conn r with hsk | ⟨m, hr⟩ | ⟨c2, o, heq, ho, hco, _, _, _, f, _, _, hww⟩
    · rw [runRowsW, hsk]
      exact ih conn s hext
    · rw [runRowsW, hr]
      exact ⟨[], by simp [Conn.rollback]⟩
    · rw [runRowsW, heq]
      have hdone : (match (c2, o) with
          | (c, RowOutcome.raised m) => (c, Except.error m)
          | (c, _) => runRowsW ctx rest c) = runRowsW ctx rest c2 := by
        rcases ho with rfl | rfl <;> rfl
      rw [hdone]
      rcases ih c2 [] (by rw [hco]; simp) with ⟨t, ht⟩
      refine ⟨s ++ [f] ++ t, ?_⟩
      rw [ht, hco, hww, hext]
      simp

theorem factWids_deleteStagingW (c : Conn) :
    factWids (deleteStagingW c).pending = factWids c.pending := rfl

theorem factWids_updateStagingLastSyncedW (c : Conn) (w now : Int) :
    factWids (updateStagingLastSyncedW c w now).pending = factWids c.pending := rfl

/-- Inversion of a successful full-scan `dl.willhaben` run (no watermark, no
staging deletion): either the staging table was empty and nothing happened, or
the loop ran over all staging rows and the result was committed. -/
theorem moveW_ok_inversion (ctx : CtxW) (conn c1 : Conn) (now : Int)
    (h : move_data_to_dwh_willhaben ctx false none now conn = ⟨c1, .ok none⟩) :
    (conn.pending.stagingW = [] ∧ c1 = conn) ∨
    (∃ c, conn.pending.stagingW ≠ [] ∧
      runRowsW ctx conn.pending.stagingW conn = (c, .ok ()) ∧ c1 = Conn.commit c) := by
  unfold move_data_to_dwh_willhaben at h
  by_cases hemp : conn.pending.stagingW.isEmpty
  · left
    rw [selectDeltaW] at h
    rw [if_pos hemp] at h
    exact ⟨List.isEmpty_iff.mp hemp, congrArg MoveResult.conn h |>.symm⟩
  · right
    rw [selectDeltaW] at h
    rw [if_neg hemp] at h
    rcases hrun : runRowsW ctx conn.pending.stagingW conn with ⟨c, e⟩
    rw [hrun] at h
    cases e with
    | error m => simp at h
    | ok u =>
      cases u
      refine ⟨c, ?_, rfl, ?_⟩
      · intro hn
        exact hemp (by simp [hn])
      · exact (congrArg MoveResult.conn h).symm

/-- Running the full-scan synchronization a second time over the same staging
data is a no-op: every row now either fails resolution exactly as before or
hits the duplicate check, so the loop leaves the connection untouched. -/
theorem moveW_idempotent (ctx : CtxW) (conn c1 : Conn) (now now2 : Int)
    (h : move_data_to_dwh_willhaben ctx false none now conn = ⟨c1, .ok none⟩) :
    move_data_to_dwh_willhaben ctx false none now2 c1 = ⟨c1, .ok none⟩ := by
  rcases moveW_ok_inversion ctx conn c1 now h with ⟨hemp, rfl⟩ | ⟨c, hne, hrun, rfl⟩
  · unfold move_data_to_dwh_willhaben
    rw [selectDeltaW]
    rw [if_pos (List.isEmpty_iff.mpr hemp)]
  · rcases runRowsW_fate ctx conn.pending.stagingW conn c hrun with ⟨hfate, _, hsw, _⟩
    have hstag : (Conn.commit c).pending.stagingW = conn.pending.stagingW := hsw
    have hallskip : ∀ r ∈ (Conn.commit c).pending.stagingW,
        processRowW ctx (Conn.commit c) r = (Conn.commit c, .skipped) := by
      intro r hr
      rw [hstag] at hr
      rcases hfate r hr with hn | hmem
      · exact processRowW_resolve_skip ctx (Conn.commit c) r hn
      · exact processRowW_dup_skip ctx (Conn.commit c) r hmem
    unfold move_data_to_dwh_willhaben
    rw [selectDeltaW]
    have hne2 : ¬ (Conn.commit c).pending.stagingW.isEmpty := by
      rw [hstag]
      simpa using hne
    rw [if_neg hne2]
    rw [runRowsW_all_skip ctx _ _ hallskip]
    rfl

/-- The whole mover preserves distinctness of external willhaben ids in the
fact table, on every path. -/
theorem moveW_nodup (ctx : CtxW) (del : Bool) (ls : Option Int) (now : Int) (conn : Conn)
    (hp : (factWids conn.pending).Nodup) (hc : (factWids conn.committed).Nodup) :
    (factWids (move_data_to_dwh_willhaben ctx del ls now conn).conn.pending).Nodup ∧
    (factWids (move_data_to_dwh_willhaben ctx del ls now conn).conn.committed).Nodup := by
  unfold move_data_to_dwh_willhaben
  by_cases hemp : (selectDeltaW ls conn.pending.stagingW).isEmpty
  · rw [if_pos hemp]
    exact ⟨hp, hc⟩
  · rw [if_neg hemp]
    rcases hrun : runRowsW ctx (selectDeltaW ls conn.pending.stagingW) conn with ⟨c, e⟩
    rcases runRowsW_nodup ctx _ conn c e hrun hp hc with ⟨hp2, hc2⟩
    cases e with
    | error m => exact ⟨hc2, hc2⟩
    | ok u =>
      cases u
      cases del <;> cases ls <;> exact ⟨hp2, hp2⟩

/-- The post-loop tracking-column refresh rewrites `last_synced` only: the row
identities (and hence the set of staging rows) are unchanged. -/
theorem updateStagingLastSyncedW_ids (c : Conn) (w now : Int) :
    (updateStagingLastSyncedW c w now).pending.stagingW.map (·.id)
      = c.pending.stagingW.map (·.id) := by
  unfold updateStagingLastSyncedW
  simp only [List.map_map]
  apply List.map_congr_left
  intro r _
  rcases hr : r.last_synced with _ | t
  · simp [Function.comp, hr]
  · by_cases hw : w < t <;> simp [Function.comp, hr, hw]

/-- With `delete_from_staging=False` and no watermark, the run leaves the
staging table exactly as it found it (on success and on abort alike). -/
theorem moveW_staging_frame_none (ctx : CtxW) (now : Int) (conn : Conn)
    (h : conn.committed = conn.pending) :
    (move_data_to_dwh_willhaben ctx false none now conn).conn.pending.stagingW
      = conn.pending.stagingW ∧
    (move_data_to_dwh_willhaben ctx false none now conn).conn.committed.stagingW
      = conn.pending.stagingW := by
  have hW : conn.committed.stagingW = conn.pending.stagingW := by rw [h]
  have hG : conn.committed.stagingG = conn.pending.stagingG := by rw [h]
  unfold move_data_to_dwh_willhaben
  by_cases hemp : (selectDeltaW none conn.pending.stagingW).isEmpty
  · rw [if_pos hemp]
    exact ⟨rfl, hW⟩
  · rw [if_neg hemp]
    have hfr := runRowsW_staging_frame ctx (selectDeltaW none conn.pending.stagingW) conn hW hG
    rcases hrun : runRowsW ctx (selectDeltaW none conn.pending.stagingW) conn with ⟨c, e⟩
    rw [hrun] at hfr
    cases e with
    | error m => exact ⟨hfr.2.1, hfr.2.1⟩
    | ok u =>
      cases u
      exact ⟨hfr.1, hfr.1⟩

/-- With `delete_from_staging=False` and a watermark, no staging row is
inserted or deleted: the list of staging row ids is preserved (their
`last_synced` column, however, is rewritten — see the counterexample). -/
theorem moveW_staging_ids_some (ctx : CtxW) (now w : Int) (conn : Conn)
    (h : conn.committed = conn.pending) :
    ((move_data_to_dwh_willhaben ctx false (some w) now conn).conn.pending.stagingW.map (·.id)
      = conn.pending.stagingW.map (·.id)) ∧
    ((move_data_to_dwh_willhaben ctx false (some w) now conn).conn.committed.stagingW.map (·.id)
      = conn.pending.stagingW.map (·.id)) := by
  have hW : conn.committed.stagingW = conn.pending.stagingW := by rw [h]
  have hG : conn.committed.stagingG = conn.pending.stagingG := by rw [h]
  unfold move_data_to_dwh_willhaben
  by_cases hemp : (selectDeltaW (some w) conn.pending.stagingW).isEmpty
  · rw [if_pos hemp]
    exact ⟨rfl, by rw [hW]⟩
  · rw [if_neg hemp]
    have hfr := runRowsW_staging_frame ctx (selectDeltaW (some w) conn.pending.stagingW) conn hW hG
    rcases hrun : runRowsW ctx (selectDeltaW (some w) conn.pending.stagingW) conn with ⟨c, e⟩
    rw [hrun] at hfr
    have h1 : c.pending.stagingW = conn.pending.stagingW := hfr.1
    have h2 : c.committed.stagingW = conn.pending.stagingW := hfr.2.1
    cases e with
    | error m =>
      constructor
      · show c.committed.stagingW.map (·.id) = conn.pending.stagingW.map (·.id)
        rw [h2]
      · show c.committed.stagingW.map (·.id) = conn.pending.stagingW.map (·.id)
        rw [h2]
    | ok u =>
      cases u
      constructor
      · show (updateStagingLastSyncedW c w now).pending.stagingW.map (·.id)
          = conn.pending.stagingW.map (·.id)
        rw [updateStagingLastSyncedW_ids, h1]
      · show (updateStagingLastSyncedW c w now).pending.stagingW.map (·.id)
          = conn.pending.stagingW.map (·.id)
        rw [updateStagingLastSyncedW_ids, h1]

/-- The gebrauchtwagen duplicate check also matches on the external id
(`gw_guid`) alone: any fact row carrying it causes a skip. -/
theorem processRowG_dup_skip (ctx : CtxG) (conn : Conn) (r0 : RowG) (f : FactRow)
    (hf : f ∈ conn.pending.willwagen) (hid : f.gw_guid = some (ctx.transform r0).id) :
    processRowG ctx conn r0 = (conn, .skipped) := by
  have hany : conn.pending.willwagen.any
      (fun f => f.gw_guid == some (ctx.transform r0).id) = true :=
    List.any_eq_true.mpr ⟨f, hf, by simp [hid]⟩
  unfold processRowG
  rcases hres : resolveG ctx (ctx.transform r0) with _ | ⟨mkId, mdId, fId⟩
  · simp [hres]
  · simp [hres, hany]

/-- The willhaben mover's Python return value: `None` on success, an exception
otherwise — never a counts record. -/
theorem moveW_result_shape (ctx : CtxW) (del : Bool) (ls : Option Int) (now : Int) (conn : Conn) :
    (move_data_to_dwh_willhaben ctx del ls now conn).result = .ok none ∨
    ∃ m, (move_data_to_dwh_willhaben ctx del ls now conn).result = .error m := by
  unfold move_data_to_dwh_willhaben
  by_cases hemp : (selectDeltaW ls conn.pending.stagingW).isEmpty
  · rw [if_pos hemp]
    exact Or.inl rfl
  · rw [if_neg hemp]
    rcases hrun : runRowsW ctx (selectDeltaW ls conn.pending.stagingW) conn with ⟨c, e⟩
    cases e with
    | error m => exact Or.inr ⟨m, rfl⟩
    | ok u =>
      cases u
      exact Or.inl rfl

/-- The gebrauchtwagen mover's Python return value: likewise never counts. -/
theorem moveG_result_shape (ctx : CtxG) (del : Bool) (ls : Option Int) (now : Int) (conn : Conn) :
    (move_data_to_dwh_gebrauchtwagen ctx del ls now conn).result = .ok none ∨
    ∃ m, (move_data_to_dwh_gebrauchtwagen ctx del ls now conn).result = .error m := by
  unfold move_data_to_dwh_gebrauchtwagen
  by_cases hemp : (selectDeltaG ls conn.pending.stagingG).isEmpty
  · rw [if_pos hemp]
    exact Or.inl rfl
  · rw [if_neg hemp]
    rcases hrun : runRowsG ctx (selectDeltaG ls conn.pending.stagingG) conn with ⟨c, e⟩
    cases e with
    | error m => exact Or.inr ⟨m, rfl⟩
    | ok u =>
      cases u
      exact Or.inl rfl

/-- `update_sync_time` followed by `get_last_sync_time` on the same table
yields the stored time (MATCHED branch of the MERGE). -/
theorem get_map_update_sync (tbl : String) (time : Int) :
    ∀ log : List (String × Int), log.any (fun p => p.1 == tbl) = true →
      get_last_sync_time (log.map (fun p => if p.1 == tbl then (p.1, time) else p)) tbl
        = some time := by
  intro log
  induction log with
  | nil => intro h; simp at h
  | cons q rest ih =>
    intro h
    by_cases hq : q.1 == tbl
    · have hq2 : q.1 = tbl := by simpa using hq
      simp [get_last_sync_time, List.find?, hq, hq2]
    · have hrest : rest.any (fun p => p.1 == tbl) = true := by
        rcases List.any_eq_true.mp h with ⟨p, hp, hpt⟩
        rcases List.mem_cons.mp hp with rfl | hp2
        · exact absurd hpt (by simpa using hq)
        · exact List.any_eq_true.mpr ⟨p, hp2, hpt⟩
      have := ih hrest
      simpa [get_last_sync_time, List.find?, hq] using this

/-- `update_sync_time` followed by `get_last_sync_time` on the same table,
NOT-MATCHED branch of the MERGE (fresh table name). -/
theorem get_append_update_sync (tbl : String) (time : Int) :
    ∀ log : List (String × Int), log.any (fun p => p.1 == tbl) = false →
      get_last_sync_time (log ++ [(tbl, time)]) tbl = some time := by
  intro log
  induction log with
  | nil => simp [get_last_sync_time, List.find?]
  | cons q rest ih =>
    intro h
    rw [List.any_cons] at h
    rcases Bool.or_eq_false_iff.mp h with ⟨hq, hrest⟩
    have := ih hrest
    simpa [get_last_sync_time, List.find?, hq] using this

/-- The watermark stored for a table is the time passed to
`update_sync_time`. -/
theorem get_update_sync_time (log : List (String × Int)) (tbl : String) (time : Int) :
    get_last_sync_time (update_sync_time log tbl time) tbl = some time := by
  unfold update_sync_time
  by_cases h : log.any (fun p => p.1 == tbl)
  · rw [if_pos h]
    exact get_map_update_sync tbl time log h
  · rw [if_neg h]
    exact get_append_update_sync tbl time log (Bool.eq_false_iff.mpr h)

/-! ### Gebrauchtwagen-branch lemmas -/

theorem mem_factGids {d : Db} {a : String} :
    a ∈ factGids d ↔ ∃ f ∈ d.willwagen, f.gw_guid = some a := by
  simp [factGids, List.mem_filterMap]

theorem factGids_append (w1 w2 : List FactRow) :
    (w1 ++ w2).filterMap (·.gw_guid) =
      w1.filterMap (·.gw_guid) ++ w2.filterMap (·.gw_guid) := by
  simp [List.filterMap_append]

/-- A gebrauchtwagen row whose dimension resolution fails is skipped with no
effect at all on the connection. -/
theorem processRowG_resolve_skip (ctx : CtxG) (conn : Conn) (r0 : RowG)
    (h : resolveG ctx (ctx.transform r0) = none) :
    processRowG ctx conn r0 = (conn, .skipped) := by
  simp [processRowG, h]

/-- A gebrauchtwagen row whose (transformed) external id already appears in
the fact table's `gw_guid` column is skipped with no effect at all. -/
theorem processRowG_dupmem_skip (ctx : CtxG) (conn : Conn) (r0 : RowG)
    (h : (ctx.transform r0).id ∈ factGids conn.pending) :
    processRowG ctx conn r0 = (conn, .skipped) := by
  rcases mem_factGids.mp h with ⟨f, hf, hid⟩
  exact processRowG_dup_skip ctx conn r0 f hf hid

/-- Shape of one `dl.gebrauchtwagen` loop iteration: a pure skip, a raise
netting out to a rollback, or an uncommitted step appending exactly one fact
row carrying the row's external id in `gw_guid` (checked absent first) plus a
location row — with the committed database and the staging tables untouched
(this branch has no per-row commit). -/
theorem processRowG_cases (ctx : CtxG) (conn : Conn) (r0 : RowG) :
    processRowG ctx conn r0 = (conn, .skipped) ∨
    (∃ m, processRowG ctx conn r0 = (Conn.rollback conn, .raised m)) ∨
    (∃ c2, processRowG ctx conn r0 = (c2, .done) ∧
      c2.committed = conn.committed ∧
      c2.pending.stagingW = conn.pending.stagingW ∧
      c2.pending.stagingG = conn.pending.stagingG ∧
      (ctx.transform r0).id ∉ factGids conn.pending ∧
      (∃ f, f.gw_guid = some (ctx.transform r0).id ∧ f.willhaben_id = none ∧
        c2.pending.willwagen = conn.pending.willwagen ++ [f])) := by
  unfold processRowG
  rcases hres : resolveG ctx (ctx.transform r0) with _ | ⟨mkId, mdId, fId⟩
  · exact Or.inl (by simp [hres])
  · by_cases hdup : conn.pending.willwagen.any
        (fun f => f.gw_guid == some (ctx.transform r0).id)
    · exact Or.inl (by simp [hres, hdup])
    · have hnotin : (ctx.transform r0).id ∉ factGids conn.pending := by
        intro hmem
        rcases mem_factGids.mp hmem with ⟨f, hf, hid⟩
        exact hdup (List.any_eq_true.mpr ⟨f, hf, by simp [hid]⟩)
      by_cases hfail : ctx.fails "dwh.willwagen" (ctx.transform r0).id
      · exact Or.inr (Or.inl ⟨"dwh.willwagen", by simp [hres, hdup, hfail]⟩)
      · by_cases hfail2 : ctx.fails "dwh.location" (ctx.transform r0).id
        · refine Or.inr (Or.inl ⟨"dwh.location", ?_⟩)
          simp only [hres, hdup, hfail, hfail2]
          simp [Conn.rollback, insertFact]
        · refine Or.inr (Or.inr ⟨insertLocation
              (insertFact conn (factRowG ctx (ctx.transform r0) mkId mdId fId))
              { gebrauchtwagen_guid := some (ctx.transform r0).id
                postcode := if (splitFirstSpace (ctx.transform r0).location).length > 1
                  then (splitFirstSpace (ctx.transform r0).location).get? 0 else none
                location := if (splitFirstSpace (ctx.transform r0).location).length > 1
                  then (splitFirstSpace (ctx.transform r0).location).get? 1 else none },
            ?_, rfl, rfl, rfl, hnotin,
            factRowG ctx (ctx.transform r0) mkId mdId fId, rfl, rfl, rfl⟩)
          simp [hres, hdup, hfail, hfail2]

/-- A gebrauchtwagen skip can only come from failed dimension resolution or
from the `gw_guid` duplicate check. -/
theorem processRowG_skip_inversion (ctx : CtxG) (conn conn2 : Conn) (r0 : RowG)
    (h : processRowG ctx conn r0 = (conn2, .skipped)) :
    resolveG ctx (ctx.transform r0) = none ∨
    (ctx.transform r0).id ∈ factGids conn.pending := by
  rcases hres : resolveG ctx (ctx.transform r0) with _ | ⟨mkId, mdId, fId⟩
  · exact Or.inl rfl
  · right
    simp only [processRowG] at h
    rw [hres] at h
    by_cases hdup : conn.pending.willwagen.any
        (fun f => f.gw_guid == some (ctx.transform r0).id)
    · rcases List.any_eq_true.mp hdup with ⟨f, hf, hbeq⟩
      exact mem_factGids.mpr ⟨f, hf, by simpa using hbeq⟩
    · exfalso
      by_cases hfail : ctx.fails "dwh.willwagen" (ctx.transform r0).id
      · simp [hdup, hfail, Prod.ext_iff] at h
      · by_cases hfail2 : ctx.fails "dwh.location" (ctx.transform r0).id
        · simp [hdup, hfail, hfail2, Prod.ext_iff] at h
        · simp [hdup, hfail, hfail2, Prod.ext_iff] at h

/-- After a gebrauchtwagen loop that completed without raising: every row
either failed resolution or has its external id in the fact table's `gw_guid`
column; the fact table only grew; the staging tables are untouched. -/
theorem runRowsG_fate (ctx : CtxG) :
    ∀ (rows : List RowG) (conn cf : Conn), runRowsG ctx rows conn = (cf, .ok ()) →
      (∀ r ∈ rows, resolveG ctx (ctx.transform r) = none ∨
        (ctx.transform r).id ∈ factGids cf.pending) ∧
      (∃ t, cf.pending.willwagen = conn.pending.willwagen ++ t) ∧
      cf.pending.stagingW = conn.pending.stagingW ∧
      cf.pending.stagingG = conn.pending.stagingG := by
  intro rows
  induction rows with
  | nil =>
    intro conn cf h
    simp [runRowsG, Prod.ext_iff] at h
    subst h
    exact ⟨by simp, ⟨[], by simp⟩, rfl, rfl⟩
  | cons r rest ih =>
    intro conn cf h
    rcases processRowG_cases ctx conn r with hsk | ⟨m, hr⟩ | ⟨c2, heq, _, hsw, hsg, _, f, hfid, _, hww⟩
    · rw [runRowsG, hsk] at h
      rcases ih conn cf h with ⟨hfate, hext, hs1, hs2⟩
      refine ⟨?_, hext, hs1, hs2⟩
      intro x hx
      rcases List.mem_cons.mp hx with rfl | hx2
      · rcases processRowG_skip_inversion ctx conn conn x hsk with hn | hmem
        · exact Or.inl hn
        · rcases hext with ⟨t, ht⟩
          refine Or.inr ?_
          have : factGids cf.pending = factGids conn.pending ++ t.filterMap (·.gw_guid) := by
            rw [factGids, ht, factGids_append]
            rfl
          rw [this]
          exact List.mem_append_left _ hmem
      · exact hfate x hx2
    · rw [runRowsG, hr] at h
      simp [Prod.ext_iff] at h
    · rw [runRowsG, heq] at h
      have hrec : runRowsG ctx rest c2 = (cf, .ok ()) := by simpa using h
      rcases ih c2 cf hrec with ⟨hfate, ⟨t, ht⟩, hs1, hs2⟩
      refine ⟨?_, ⟨[f] ++ t, by rw [ht, hww]; simp⟩, by rw [hs1, hsw], by rw [hs2, hsg]⟩
      intro x hx
      rcases List.mem_cons.mp hx with rfl | hx2
      · refine Or.inr ?_
        have hmem : (ctx.transform x).id ∈ factGids c2.pending := by
          rw [factGids, hww, factGids_append]
          simp [hfid]
        have : factGids cf.pending = factGids c2.pending ++ t.filterMap (·.gw_guid) := by
          rw [factGids, ht, factGids_append]
          rfl
        rw [this]
        exact List.mem_append_left _ hmem
      · exact hfate x hx2

/-- When every gebrauchtwagen row individually skips, the loop is a no-op. -/
theorem runRowsG_all_skip (ctx : CtxG) :
    ∀ (rows : List RowG) (conn : Conn),
      (∀ r ∈ rows, processRowG ctx conn r = (conn, .skipped)) →
      runRowsG ctx rows conn = (conn, .ok ()) := by
  intro rows
  induction rows with
  | nil => intro conn _; rfl
  | cons r rest ih =>
    intro conn h
    rw [runRowsG, h r (List.mem_cons_self r rest)]
    exact ih conn (fun x hx => h x (List.mem_cons_of_mem r hx))

/-- The gebrauchtwagen loop never touches the staging tables. -/
theorem runRowsG_staging_frame (ctx : CtxG) :
    ∀ (rows : List RowG) (conn : Conn),
      conn.committed.stagingW = conn.pending.stagingW →
      conn.committed.stagingG = conn.pending.stagingG →
      ((runRowsG ctx rows conn).1.pending.stagingW = conn.pending.stagingW ∧
       (runRowsG ctx rows conn).1.committed.stagingW = conn.pending.stagingW ∧
       (runRowsG ctx rows conn).1.pending.stagingG = conn.pending.stagingG ∧
       (runRowsG ctx rows conn).1.committed.stagingG = conn.pending.stagingG) := by
  intro rows
  induction rows with
  | nil => intro conn h1 h2; exact ⟨rfl, h1, rfl, h2⟩
  | cons r rest ih =>
    intro conn h1 h2
    rcases processRowG_cases ctx conn r with hsk | ⟨m, hr⟩ | ⟨c2, heq, hco, hsw, hsg, _⟩
    · rw [runRowsG, hsk]
      exact ih conn h1 h2
    · rw [runRowsG, hr]
      exact ⟨h1, h1, h2, h2⟩
    · rw [runRowsG, heq]
      have hdone : (match (c2, RowOutcome.done) with
          | (c, RowOutcome.raised m) => (c, Except.error m)
          | (c, _) => runRowsG ctx rest c) = runRowsG ctx rest c2 := rfl
      rw [hdone]
      have := ih c2 (by rw [hco, hsw]; exact h1) (by rw [hco, hsg]; exact h2)
      rw [hsw, hsg] at this
      exact this

/-- Inversion of a successful full-scan `dl.gebrauchtwagen` run. -/
theorem moveG_ok_inversion (ctx : CtxG) (conn c1 : Conn) (now : Int)
    (h : move_data_to_dwh_gebrauchtwagen ctx false none now conn = ⟨c1, .ok none⟩) :
    (conn.pending.stagingG = [] ∧ c1 = conn) ∨
    (∃ c, conn.pending.stagingG ≠ [] ∧
      runRowsG ctx conn.pending.stagingG conn = (c, .ok ()) ∧ c1 = Conn.commit c) := by
  unfold move_data_to_dwh_gebrauchtwagen at h
  by_cases hemp : conn.pending.stagingG.isEmpty
  · left
    rw [selectDeltaG] at h
    rw [if_pos hemp] at h
    exact ⟨List.isEmpty_iff.mp hemp, congrArg MoveResult.conn h |>.symm⟩
  · right
    rw [selectDeltaG] at h
    rw [if_neg hemp] at h
    rcases hrun : runRowsG ctx conn.pending.stagingG conn with ⟨c, e⟩
    rw [hrun] at h
    cases e with
    | error m => simp at h
    | ok u =>
      cases u
      refine ⟨c, ?_, rfl, ?_⟩
      · intro hn
        exact hemp (by simp [hn])
      · exact (congrArg MoveResult.conn h).symm

/-- Running the full-scan gebrauchtwagen synchronization a second time over
the same staging data is a no-op. -/
theorem moveG_idempotent (ctx : CtxG) (conn c1 : Conn) (now now2 : Int)
    (h : move_data_to_dwh_gebrauchtwagen ctx false none now conn = ⟨c1, .ok none⟩) :
    move_data_to_dwh_gebrauchtwagen ctx false none now2 c1 = ⟨c1, .ok none⟩ := by
  rcases moveG_ok_inversion ctx conn c1 now h with ⟨hemp, rfl⟩ | ⟨c, hne, hrun, rfl⟩
  · unfold move_data_to_dwh_gebrauchtwagen
    rw [selectDeltaG]
    rw [if_pos (List.isEmpty_iff.mpr hemp)]
  · rcases runRowsG_fate ctx conn.pending.stagingG conn c hrun with ⟨hfate, _, _, hsg⟩
    have hstag : (Conn.commit c).pending.stagingG = conn.pending.stagingG := hsg
    have hallskip : ∀ r ∈ (Conn.commit c).pending.stagingG,
        processRowG ctx (Conn.commit c) r = (Conn.commit c, .skipped) := by
      intro r hr
      rw [hstag] at hr
      rcases hfate r hr with hn | hmem
      · exact processRowG_resolve_skip ctx (Conn.commit c) r hn
      · exact processRowG_dupmem_skip ctx (Conn.commit c) r hmem
    unfold move_data_to_dwh_gebrauchtwagen
    rw [selectDeltaG]
    have hne2 : ¬ (Conn.commit c).pending.stagingG.isEmpty := by
      rw [hstag]
      simpa using hne
    rw [if_neg hne2]
    rw [runRowsG_all_skip ctx _ _ hallskip]
    rfl

/-! ### Joint distinctness of the per-feed external ids -/

/-- Formal rendering of "the `(source_id, external_id)` pairs are distinct":
each feed writes its own external-id column of `dwh.willwagen`
(`willhaben_id` for willhaben, `gw_guid` for gebrauchtwagen), so distinctness
of each column separately gives distinctness of the pairs across all runs of
both feeds. -/
def distinctExtIds (d : Db) : Prop :=
  (factWids d).Nodup ∧ (factGids d).Nodup

instance (d : Db) : Decidable (distinctExtIds d) := by
  unfold distinctExtIds
  infer_instance

/-- The willhaben loop preserves joint distinctness: it appends only fact rows
whose `willhaben_id` was checked absent and whose `gw_guid` is NULL. -/
theorem runRowsW_distinct (ctx : CtxW) :
    ∀ (rows : List RowW) (conn c : Conn) (e : Except String Unit),
      runRowsW ctx rows conn = (c, e) →
      distinctExtIds conn.pending → distinctExtIds conn.committed →
      distinctExtIds c.pending ∧ distinctExtIds c.committed := by
  intro rows
  induction rows with
  | nil =>
    intro conn c e h hp hc
    simp [runRowsW, Prod.ext_iff] at h
    rw [← h.1]
    exact ⟨hp, hc⟩
  | cons r rest ih =>
    intro conn c e h hp hc
    rcases processRowW_cases ctx conn r with hsk | ⟨m, hr⟩ | ⟨c2, o, heq, ho, hco, _, _, hnotin, f, hfid, hgw, hww⟩
    · rw [runRowsW, hsk] at h
      exact ih conn c e h hp hc
    · rw [runRowsW, hr] at h
      simp [Prod.ext_iff] at h
      rw [← h.1]
      exact ⟨hc, hc⟩
    · rw [runRowsW, heq] at h
      have hrec : runRowsW ctx rest c2 = (c, e) := by
        rcases ho with rfl | rfl <;> simpa using h
      have hp2 : distinctExtIds c2.pending := by
        constructor
        · rw [factWids, hww, factWids_append]
          have hone : List.filterMap (fun x => x.willhaben_id) [f]
              = [(ctx.transform r).id] := by
            simp [hfid]
          rw [hone]
          simp only [List.nodup_append]
          refine ⟨hp.1, List.nodup_singleton _, ?_⟩
          intro a ha hmem
          rcases List.mem_singleton.mp hmem with rfl
          exact hnotin ha
        · rw [factGids, hww, factGids_append]
          have hnone : List.filterMap (fun x => x.gw_guid) [f] = [] := by
            simp [hgw]
          rw [hnone, List.append_nil]
          exact hp.2
      exact ih c2 c e hrec hp2 (hco ▸ hp2)

/-- The gebrauchtwagen loop preserves joint distinctness: it appends only fact
rows whose `gw_guid` was checked absent and whose `willhaben_id` is NULL, and
it never commits inside the loop. -/
theorem runRowsG_distinct (ctx : CtxG) :
    ∀ (rows : List RowG) (conn c : Conn) (e : Except String Unit),
      runRowsG ctx rows conn = (c, e) →
      distinctExtIds conn.pending → distinctExtIds conn.committed →
      distinctExtIds c.pending ∧ distinctExtIds c.committed := by
  intro rows
  induction rows with
  | nil =>
    intro conn c e h hp hc
    simp [runRowsG, Prod.ext_iff] at h
    rw [← h.1]
    exact ⟨hp, hc⟩
  | cons r rest ih =>
    intro conn c e h hp hc
    rcases processRowG_cases ctx conn r with hsk | ⟨m, hr⟩ | ⟨c2, heq, hco, _, _, hnotin, f, hfid, hwid, hww⟩
    · rw [runRowsG, hsk] at h
      exact ih conn c e h hp hc
    · rw [runRowsG, hr] at h
      simp [Prod.ext_iff] at h
      rw [← h.1]
      exact ⟨hc, hc⟩
    · rw [runRowsG, heq] at h
      have hrec : runRowsG ctx rest c2 = (c, e) := by simpa using h
      have hp2 : distinctExtIds c2.pending := by
        constructor
        · rw [factWids, hww, factWids_append]
          have hnone : List.filterMap (fun x => x.willhaben_id) [f] = [] := by
            simp [hwid]
          rw [hnone, List.append_nil]
          exact hp.1
        · rw [factGids, hww, factGids_append]
          have hone : List.filterMap (fun x => x.gw_guid) [f]
              = [(ctx.transform r).id] := by
            simp [hfid]
          rw [hone]
          simp only [List.nodup_append]
          refine ⟨hp.2, List.nodup_singleton _, ?_⟩
          intro a ha hmem
          rcases List.mem_singleton.mp hmem with rfl
          exact hnotin ha
      have hc2 : distinctExtIds c2.committed := by
        rw [hco]
        exact hc
      exact ih c2 c e hrec hp2 hc2

/-- The whole willhaben mover preserves joint distinctness on every path. -/
theorem moveW_distinct (ctx : CtxW) (del : Bool) (ls : Option Int) (now : Int) (conn : Conn)
    (hp : distinctExtIds conn.pending) (hc : distinctExtIds conn.committed) :
    distinctExtIds (move_data_to_dwh_willhaben ctx del ls now conn).conn.pending ∧
    distinctExtIds (move_data_to_dwh_willhaben ctx del ls now conn).conn.committed := by
  unfold move_data_to_dwh_willhaben
  by_cases hemp : (selectDeltaW ls conn.pending.stagingW).isEmpty
  · rw [if_pos hemp]
    exact ⟨hp, hc⟩
  · rw [if_neg hemp]
    rcases hrun : runRowsW ctx (selectDeltaW ls conn.pending.stagingW) conn with ⟨c, e⟩
    rcases runRowsW_distinct ctx _ conn c e hrun hp hc with ⟨hp2, hc2⟩
    cases e with
    | error m => exact ⟨hc2, hc2⟩
    | ok u =>
      cases u
      cases del <;> cases ls <;> exact ⟨hp2, hp2⟩

/-- The whole gebrauchtwagen mover preserves joint distinctness on every
path. -/
theorem moveG_distinct (ctx : CtxG) (del : Bool) (ls : Option Int) (now : Int) (conn : Conn)
    (hp : distinctExtIds conn.pending) (hc : distinctExtIds conn.committed) :
    distinctExtIds (move_data_to_dwh_gebrauchtwagen ctx del ls now conn).conn.pending ∧
    distinctExtIds (move_data_to_dwh_gebrauchtwagen ctx del ls now conn).conn.committed := by
  unfold move_data_to_dwh_gebrauchtwagen
  by_cases hemp : (selectDeltaG ls conn.pending.stagingG).isEmpty
  · rw [if_pos hemp]
    exact ⟨hp, hc⟩
  · rw [if_neg hemp]
    rcases hrun : runRowsG ctx (selectDeltaG ls conn.pending.stagingG) conn with ⟨c, e⟩
    rcases runRowsG_distinct ctx _ conn c e hrun hp hc with ⟨hp2, hc2⟩
    cases e with
    | error m => exact ⟨hc2, hc2⟩
    | ok u =>
      cases u
      cases del <;> cases ls <;> exact ⟨hp2, hp2⟩

/-! ### Gebrauchtwagen staging-frame lemmas -/

/-- The gebrauchtwagen tracking-column refresh also preserves row ids. -/
theorem updateStagingLastSyncedG_ids (c : Conn) (w now : Int) :
    (updateStagingLastSyncedG c w now).pending.stagingG.map (·.id)
      = c.pending.stagingG.map (·.id) := by
  unfold updateStagingLastSyncedG
  simp only [List.map_map]
  apply List.map_congr_left
  intro r _
  rcases hr : r.last_synced with _ | t
  · simp [Function.comp, hr]
  · by_cases hw : w < t <;> simp [Function.comp, hr, hw]

/-- With `delete_from_staging=False` and no watermark, the gebrauchtwagen run
leaves its staging table exactly as it found it, on every exit path. -/
theorem moveG_staging_frame_none (ctx : CtxG) (now : Int) (conn : Conn)
    (h : conn.committed = conn.pending) :
    (move_data_to_dwh_gebrauchtwagen ctx false none now conn).conn.pending.stagingG
      = conn.pending.stagingG ∧
    (move_data_to_dwh_gebrauchtwagen ctx false none now conn).conn.committed.stagingG
      = conn.pending.stagingG := by
  have hW : conn.committed.stagingW = conn.pending.stagingW := by rw [h]
  have hG : conn.committed.stagingG = conn.pending.stagingG := by rw [h]
  unfold move_data_to_dwh_gebrauchtwagen
  by_cases hemp : (selectDeltaG none conn.pending.stagingG).isEmpty
  · rw [if_pos hemp]
    exact ⟨rfl, hG⟩
  · rw [if_neg hemp]
    have hfr := runRowsG_staging_frame ctx (selectDeltaG none conn.pending.stagingG) conn hW hG
    rcases hrun : runRowsG ctx (selectDeltaG none conn.pending.stagingG) conn with ⟨c, e⟩
    rw [hrun] at hfr
    cases e with
    | error m => exact ⟨hfr.2.2.2, hfr.2.2.2⟩
    | ok u =>
      cases u
      exact ⟨hfr.2.2.1, hfr.2.2.1⟩

/-- With `delete_from_staging=False` and a watermark, the gebrauchtwagen run
inserts and deletes no staging row: the id list is preserved. -/
theorem moveG_staging_ids_some (ctx : CtxG) (now w : Int) (conn : Conn)
    (h : conn.committed = conn.pending) :
    ((move_data_to_dwh_gebrauchtwagen ctx false (some w) now conn).conn.pending.stagingG.map
        (·.id) = conn.pending.stagingG.map (·.id)) ∧
    ((move_data_to_dwh_gebrauchtwagen ctx false (some w) now conn).conn.committed.stagingG.map
        (·.id) = conn.pending.stagingG.map (·.id)) := by
  have hW : conn.committed.stagingW = conn.pending.stagingW := by rw [h]
  have hG : conn.committed.stagingG = conn.pending.stagingG := by rw [h]
  unfold move_data_to_dwh_gebrauchtwagen
  by_cases hemp : (selectDeltaG (some w) conn.pending.stagingG).isEmpty
  · rw [if_pos hemp]
    exact ⟨rfl, by rw [hG]⟩
  · rw [if_neg hemp]
    have hfr := runRowsG_staging_frame ctx (selectDeltaG (some w) conn.pending.stagingG) conn hW hG
    rcases hrun : runRowsG ctx (selectDeltaG (some w) conn.pending.stagingG) conn with ⟨c, e⟩
    rw [hrun] at hfr
    have h1 : c.pending.stagingG = conn.pending.stagingG := hfr.2.2.1
    have h2 : c.committed.stagingG = conn.pending.stagingG := hfr.2.2.2
    cases e with
    | error m =>
      constructor
      · show c.committed.stagingG.map (·.id) = conn.pending.stagingG.map (·.id)
        rw [h2]
      · show c.committed.stagingG.map (·.id) = conn.pending.stagingG.map (·.id)
        rw [h2]
    | ok u =>
      cases u
      constructor
      · show (updateStagingLastSyncedG c w now).pending.stagingG.map (·.id)
          = conn.pending.stagingG.map (·.id)
        rw [updateStagingLastSyncedG_ids, h1]
      · show (updateStagingLastSyncedG c w now).pending.stagingG.map (·.id)
          = conn.pending.stagingG.map (·.id)
        rw [updateStagingLastSyncedG_ids, h1]

/-! ## Concrete fixtures (dimension tables, mappings, staging rows) -/

def sampleDims : Dims :=
  { make := [⟨1, "bmw"⟩, ⟨2, "mercedes_benz"⟩]
    model := [⟨10, "320d"⟩, ⟨11, "a_klasse"⟩]
    car_type := [⟨7, "compact_car"⟩, ⟨8, "suv"⟩]
    fuel := [⟨20, "diesel"⟩] }

def sampleMapsW : WillhabenMappings :=
  { make_mapping := [("Mercedes-Benz", "mercedes_benz")]
    model_mapping := [("A-Klasse", "a_klasse")]
    car_type_mapping := [("Klein-/ Kompaktwagen", "compact_car")] }

def sampleCtxW : CtxW := { maps := sampleMapsW, dims := sampleDims, sourceId := some 1 }

def rowW1 : RowW :=
  { id := "W1", car_type := "Klein-/ Kompaktwagen", make := "bmw", model := "320d"
    price := some 9000, coordinates := some "16.3,48.2", postcode := some "1010"
    last_synced := some 10 }

def rowW2 : RowW := { rowW1 with id := "W2" }

def rowW3 : RowW := { rowW1 with id := "W3" }

def rowW4 : RowW := { rowW1 with id := "W4", car_type := "suv" }

/-- Failure oracle making the `dwh.specification` insert raise for row W2. -/
def failCtxW : CtxW :=
  { sampleCtxW with fails := fun t i => t == "dwh.specification" && i == "W2" }

def dbW1 : Db := { stagingW := [rowW1] }

def connW1 : Conn := ⟨dbW1, dbW1⟩

def dbW3 : Db := { stagingW := [rowW1, rowW2, rowW3] }

def connW3 : Conn := ⟨dbW3, dbW3⟩

def dbEmpty : Db := {}

def connEmpty : Conn := ⟨dbEmpty, dbEmpty⟩

/-- A fact row loaded earlier by a different feed (`source_id = 42`) carrying
external id W1. -/
def foreignFactW : FactRow :=
  { willhaben_id := some "W1", source_id := 42, make_id := 1, model_id := 10 }

def dbDupW : Db := { stagingW := [rowW1], willwagen := [foreignFactW] }

def connDupW : Conn := ⟨dbDupW, dbDupW⟩

def lowerG (r : RowG) : RowG :=
  { r with
    make := strLower r.make
    model := strLower r.model
    engine_fuel := strLower r.engine_fuel }

def sampleMapsG : GebrauchtwagenMappings :=
  { engine_fuel_mapping := [("dieselmotor", "diesel")] }

def sampleCtxG : CtxG :=
  { transform := lowerG, maps := sampleMapsG, dims := sampleDims, sourceId := some 2 }

def rowG1 : RowG :=
  { id := "G1", make := "BMW", model := "320d", engine_fuel := "Dieselmotor"
    price := some 7000, location := "1010 Wien Mitte", last_synced := some 10 }

def dbG1 : Db := { stagingG := [rowG1] }

def connG1 : Conn := ⟨dbG1, dbG1⟩

/-- A fact row loaded earlier by a different feed (`source_id = 9`) carrying
external id G1. -/
def foreignFactG : FactRow :=
  { gw_guid := some "G1", source_id := 9, make_id := 1, model_id := 10 }

def dbDupG : Db := { stagingG := [rowG1], willwagen := [foreignFactG] }

def connDupG : Conn := ⟨dbDupG, dbDupG⟩

/-! ## The claims -/

/-- Claim C3 (amended): `move_data_to_dwh` does not return
`{succeeded, skipped, failed}` counts; for every invocation of either branch
its Python return value is `None` (it raises on systemic failure).  The
`{succeeded, skipped, failed}` contract of the spec is not implemented. -/
theorem claim3_amended :
    ∀ (ctxW : CtxW) (ctxG : CtxG) (del : Bool) (ls : Option Int) (now : Int) (conn : Conn),
      ((move_data_to_dwh_willhaben ctxW del ls now conn).result = .ok none ∨
        ∃ m, (move_data_to_dwh_willhaben ctxW del ls now conn).result = .error m) ∧
      ((move_data_to_dwh_gebrauchtwagen ctxG del ls now conn).result = .ok none ∨
        ∃ m, (move_data_to_dwh_gebrauchtwagen ctxG del ls now conn).result = .error m) :=
  fun ctxW ctxG del ls now conn =>
    ⟨moveW_result_shape ctxW del ls now conn, moveG_result_shape ctxG del ls now conn⟩

/-- Claim C3 counterexample: a successful run that actually loaded one staging
row into the warehouse still hands `None` back to the caller — not a
`{succeeded: 1, skipped: 0, failed: 0}` record as the claim asserts. -/
theorem claim3_counterexample :
    (move_data_to_dwh_willhaben sampleCtxW false none 99 connW1).result = Except.ok none ∧
    (move_data_to_dwh_willhaben sampleCtxW false none 99 connW1).conn.committed.willwagen.length
      = 1 :=
  ⟨rfl, rfl⟩

/-- Claim C4 (amended): the watermark recorded on completion of each
synchronization step is `datetime.now()` evaluated AFTER the mover call
returns — the completion-time clock `clock + dur`, not the clock captured at
the start of the run. -/
theorem claim4_amended :
    ∀ (dur clock : Int) (tbl : String) (log : List (String × Int)),
      get_last_sync_time (syncTableStep dur tbl (clock, log)).2 tbl = some (clock + dur) ∧
      (syncTableStep dur tbl (clock, log)).1 = clock + dur :=
  fun dur clock tbl log => ⟨get_update_sync_time log tbl (clock + dur), rfl⟩

/-- Claim C4 counterexample: starting at clock 0 with an empty sync log, a
mover call that takes 7 time units ends with watermark 7 — the time after the
run — whereas the claim says the recorded watermark is the start-of-run
timestamp 0. -/
theorem claim4_counterexample :
    get_last_sync_time (syncTableStep 7 "dl.willhaben" (0, [])).2 "dl.willhaben" = some 7 :=
  rfl

/-- Claim C5: a falsy (`None` or empty) raw value makes both `lookup` and
`lookup_or_insert` return `None` immediately, with the dimension table and the
surrogate counter unchanged — no empty dimension row is ever created. -/
theorem claim5_empty_resolution :
    ∀ (dim : List DimRow) (nextId : Int) (v : Option String),
      falsyO v = true →
      lookup dim v = none ∧ lookup_or_insert dim nextId v = (none, dim, nextId) := by
  intro dim n v h
  constructor
  · rw [lookup, if_pos h]
  · rw [lookup_or_insert, if_pos h]

/-- Claim C5 witness: both the `None` and the `""` edge cases, on a nonempty
dimension table. -/
theorem claim5_witness :
    (lookup [⟨1, "diesel"⟩] none = none ∧
      lookup_or_insert [⟨1, "diesel"⟩] 5 none = (none, [⟨1, "diesel"⟩], 5)) ∧
    (lookup [⟨1, "diesel"⟩] (some "") = none ∧
      lookup_or_insert [⟨1, "diesel"⟩] 5 (some "") = (none, [⟨1, "diesel"⟩], 5)) :=
  ⟨claim5_empty_resolution [⟨1, "diesel"⟩] 5 none rfl,
   claim5_empty_resolution [⟨1, "diesel"⟩] 5 (some "") rfl⟩

/-- Claim C7: `convert_unix_to_datetime` treats non-zero values strictly above
`10 ** 10` as milliseconds (dividing by 1000) and non-zero values at or below
the threshold as seconds; being a pure function, the same input always
converts the same way. -/
theorem claim7_threshold :
    ∀ t : Int,
      (10 ^ 10 < t → convert_unix_to_datetime (some t) = some ((t : ℚ) / 1000)) ∧
      (t ≠ 0 → t ≤ 10 ^ 10 → convert_unix_to_datetime (some t) = some (t : ℚ)) := by
  intro t
  constructor
  · intro h
    have h0 : t ≠ 0 := by
      intro he
      rw [he] at h
      norm_num at h
    simp only [convert_unix_to_datetime]
    rw [if_neg h0, if_pos h]
  · intro h0 hle
    simp only [convert_unix_to_datetime]
    rw [if_neg h0, if_neg (not_lt.mpr hle)]

/-- Claim C7 witness: a millisecond-magnitude input is divided by 1000, a
second-magnitude one is passed through. -/
theorem claim7_witness :
    convert_unix_to_datetime (some 20000000000) = some ((20000000000 : ℚ) / 1000) ∧
    convert_unix_to_datetime (some 1700000000) = some ((1700000000 : Int) : ℚ) ∧
    ((20000000000 : ℚ) / 1000) = 20000000 :=
  ⟨(claim7_threshold 20000000000).1 (by norm_num),
   (claim7_threshold 1700000000).2 (by norm_num) (by norm_num),
   by norm_num⟩

/-- Claim C9: with a stored watermark, a staging row is selected if and only
if its tracking column holds a value strictly greater than the watermark (a
SQL NULL tracking value never compares greater); with no watermark, every row
is selected — for both staging tables. -/
theorem claim9_delta :
    ∀ (rows : List RowW) (rowsG : List RowG) (w : Int) (r : RowW) (g : RowG),
      (r ∈ selectDeltaW (some w) rows ↔
        r ∈ rows ∧ ∃ t, r.last_synced = some t ∧ w < t) ∧
      selectDeltaW none rows = rows ∧
      (g ∈ selectDeltaG (some w) rowsG ↔
        g ∈ rowsG ∧ ∃ t, g.last_synced = some t ∧ w < t) ∧
      selectDeltaG none rowsG = rowsG := by
  intro rows rowsG w r g
  refine ⟨?_, rfl, ?_, rfl⟩
  · rw [selectDeltaW, List.mem_filter]
    constructor
    · rintro ⟨hm, hp⟩
      refine ⟨hm, ?_⟩
      rcases hr : r.last_synced with _ | t
      · rw [hr] at hp
        simp at hp
      · rw [hr] at hp
        exact ⟨t, rfl, by simpa using hp⟩
    · rintro ⟨hm, t, ht, hw⟩
      refine ⟨hm, ?_⟩
      rw [ht]
      simpa using hw
  · rw [selectDeltaG, List.mem_filter]
    constructor
    · rintro ⟨hm, hp⟩
      refine ⟨hm, ?_⟩
      rcases hr : g.last_synced with _ | t
      · rw [hr] at hp
        simp at hp
      · rw [hr] at hp
        exact ⟨t, rfl, by simpa using hp⟩
    · rintro ⟨hm, t, ht, hw⟩
      refine ⟨hm, ?_⟩
      rw [ht]
      simpa using hw

/-- Claim C1 (amended): when the fact insert or any child-row insert for one
`dl.willhaben` staging row raises, the failing row's unit of work nets out to
a rollback (the connection returns to its last committed state), the error
propagates and the batch is aborted — the remaining staging rows are NOT
processed; fact rows already committed for prior rows of the batch are
preserved (the committed fact table only ever grows, also on abort). -/
theorem claim1_amended :
    (∀ (ctx : CtxW) (conn c : Conn) (r0 : RowW) (rest : List RowW) (m : String),
      processRowW ctx conn r0 = (c, .raised m) →
        c = Conn.rollback conn ∧
        runRowsW ctx (r0 :: rest) conn = (Conn.rollback conn, .error m)) ∧
    (∀ (ctx : CtxW) (rows : List RowW) (conn : Conn),
      conn.pending = conn.committed →
      ∃ t, (runRowsW ctx rows conn).1.committed.willwagen =
        conn.committed.willwagen ++ t) := by
  constructor
  · intro ctx conn c r0 rest m h
    have hc := processRowW_raised_rollback ctx conn c r0 m h
    subst hc
    exact ⟨rfl, runRowsW_abort ctx conn _ r0 rest m h⟩
  · intro ctx rows conn h
    exact runRowsW_committed_extends ctx rows conn [] (by rw [h]; simp)

/-- Claim C1 witness: a concrete batch `[W2, W3]` where the
`dwh.specification` insert raises for W2: the loop aborts with the rolled-back
connection and W3 is never processed; the committed fact table is an extension
of what was committed before. -/
theorem claim1_witness :
    (Conn.rollback connW3 = Conn.rollback connW3 ∧
      runRowsW failCtxW [rowW2, rowW3] connW3
        = (Conn.rollback connW3, .error "dwh.specification")) ∧
    ∃ t, (runRowsW failCtxW [rowW3] connW3).1.committed.willwagen
      = connW3.committed.willwagen ++ t :=
  ⟨claim1_amended.1 failCtxW connW3 (Conn.rollback connW3) rowW2 [rowW3] "dwh.specification" rfl,
   claim1_amended.2 failCtxW [rowW3] connW3 rfl⟩

/-- Claim C1 counterexample: batch `[W1, W2, W3]` where only W2's
`dwh.specification` insert raises.  The claim says the run records W2 as
failed and continues with W3, not aborting the batch; the code instead
propagates the exception: the run result is an error and the committed fact
table holds only W1 — W3 (a perfectly valid row) was never processed.  Prior
committed work (W1) is preserved. -/
theorem claim1_counterexample :
    (move_data_to_dwh_willhaben failCtxW false none 50 connW3).result
      = Except.error "dwh.specification" ∧
    factWids (move_data_to_dwh_willhaben failCtxW false none 50 connW3).conn.committed
      = ["W1"] ∧
    connW3.pending.stagingW.length = 3 :=
  ⟨rfl, rfl, rfl⟩

/-- Claim C2: re-synchronization is idempotent, for both feeds.  (i)/(ii) a
staging row whose (transformed) external id already has a fact row —
`willhaben_id` for willhaben, `gw_guid` for gebrauchtwagen — is skipped with
no effect; (iii)/(iv) a full-scan run of either mover that succeeded, run
again over the unchanged staging table, is a complete no-op (zero new fact
rows); (v)/(vi) every run of either mover preserves joint distinctness of the
per-feed external ids — and hence of the `(source_id, external_id)` pairs —
in the fact table. -/
theorem claim2_idempotent :
    (∀ (ctx : CtxW) (conn : Conn) (r0 : RowW),
      (ctx.transform r0).id ∈ factWids conn.pending →
      processRowW ctx conn r0 = (conn, .skipped)) ∧
    (∀ (ctx : CtxG) (conn : Conn) (r0 : RowG),
      (ctx.transform r0).id ∈ factGids conn.pending →
      processRowG ctx conn r0 = (conn, .skipped)) ∧
    (∀ (ctx : CtxW) (conn c1 : Conn) (now now2 : Int),
      move_data_to_dwh_willhaben ctx false none now conn = ⟨c1, .ok none⟩ →
      move_data_to_dwh_willhaben ctx false none now2 c1 = ⟨c1, .ok none⟩) ∧
    (∀ (ctx : CtxG) (conn c1 : Conn) (now now2 : Int),
      move_data_to_dwh_gebrauchtwagen ctx false none now conn = ⟨c1, .ok none⟩ →
      move_data_to_dwh_gebrauchtwagen ctx false none now2 c1 = ⟨c1, .ok none⟩) ∧
    (∀ (ctx : CtxW) (del : Bool) (ls : Option Int) (now : Int) (conn : Conn),
      distinctExtIds conn.pending → distinctExtIds conn.committed →
      distinctExtIds (move_data_to_dwh_willhaben ctx del ls now conn).conn.pending ∧
      distinctExtIds (move_data_to_dwh_willhaben ctx del ls now conn).conn.committed) ∧
    (∀ (ctx : CtxG) (del : Bool) (ls : Option Int) (now : Int) (conn : Conn),
      distinctExtIds conn.pending → distinctExtIds conn.committed →
      distinctExtIds (move_data_to_dwh_gebrauchtwagen ctx del ls now conn).conn.pending ∧
      distinctExtIds (move_data_to_dwh_gebrauchtwagen ctx del ls now conn).conn.committed) :=
  ⟨processRowW_dup_skip,
   processRowG_dupmem_skip,
   fun ctx conn c1 now now2 h => moveW_idempotent ctx conn c1 now now2 h,
   fun ctx conn c1 now now2 h => moveG_idempotent ctx conn c1 now now2 h,
   fun ctx del ls now conn hp hc => moveW_distinct ctx del ls now conn hp hc,
   fun ctx del ls now conn hp hc => moveG_distinct ctx del ls now conn hp hc⟩

/-- Claim C2 witness: for each feed, a first run over one staging row loads
it and running the mover again immediately is exactly a no-op; the duplicate
skips and the distinctness preservation hold on the same concrete data. -/
theorem claim2_witness :
    processRowW sampleCtxW connDupW rowW1 = (connDupW, .skipped) ∧
    processRowG sampleCtxG connDupG rowG1 = (connDupG, .skipped) ∧
    move_data_to_dwh_willhaben sampleCtxW false none 100
        (move_data_to_dwh_willhaben sampleCtxW false none 99 connW1).conn
      = ⟨(move_data_to_dwh_willhaben sampleCtxW false none 99 connW1).conn, .ok none⟩ ∧
    move_data_to_dwh_gebrauchtwagen sampleCtxG false none 100
        (move_data_to_dwh_gebrauchtwagen sampleCtxG false none 99 connG1).conn
      = ⟨(move_data_to_dwh_gebrauchtwagen sampleCtxG false none 99 connG1).conn, .ok none⟩ ∧
    (distinctExtIds (move_data_to_dwh_willhaben sampleCtxW false none 99 connW1).conn.pending ∧
     distinctExtIds
       (move_data_to_dwh_willhaben sampleCtxW false none 99 connW1).conn.committed) ∧
    (distinctExtIds
       (move_data_to_dwh_gebrauchtwagen sampleCtxG false none 99 connG1).conn.pending ∧
     distinctExtIds
       (move_data_to_dwh_gebrauchtwagen sampleCtxG false none 99 connG1).conn.committed) :=
  ⟨claim2_idempotent.1 sampleCtxW connDupW rowW1 (by decide),
   claim2_idempotent.2.1 sampleCtxG connDupG rowG1 (by decide),
   claim2_idempotent.2.2.1 sampleCtxW connW1 _ 99 100 rfl,
   claim2_idempotent.2.2.2.1 sampleCtxG connG1 _ 99 100 rfl,
   claim2_idempotent.2.2.2.2.1 sampleCtxW false none 99 connW1 (by decide) (by decide),
   claim2_idempotent.2.2.2.2.2 sampleCtxG false none 99 connG1 (by decide) (by decide)⟩

/-- Claim C6 (amended): for make, model and fuel the mapping application is
`dict.get(x, x)`: an unmapped raw value passes through unchanged as its own
canonical form and is then looked up in the dimension table.  The willhaben
`car_type` mapping however uses `dict.get(x)` with NO fallback: a `car_type`
absent from the mapping table causes the row to be skipped outright,
regardless of the dimension table contents. -/
theorem claim6_amended :
    (∀ (m : List (String × String)) (k : String),
      mappingGet m k = none → mappingGetD m k = k) ∧
    (∀ (ctx : CtxW) (conn : Conn) (r0 : RowW),
      mappingGet ctx.maps.car_type_mapping (ctx.transform r0).car_type = none →
      processRowW ctx conn r0 = (conn, .skipped)) := by
  constructor
  · intro m k h
    rw [mappingGetD, h]
    rfl
  · intro ctx conn r0 h
    apply processRowW_resolve_skip
    unfold resolveW
    rw [h]
    rfl

/-- Claim C6 witness: `"bmw"` is absent from the make mapping and passes
through unchanged; row W4's raw car type is unmapped, so W4 is skipped. -/
theorem claim6_witness :
    mappingGetD sampleMapsW.make_mapping "bmw" = "bmw" ∧
    processRowW sampleCtxW connEmpty rowW4 = (connEmpty, .skipped) :=
  ⟨claim6_amended.1 sampleMapsW.make_mapping "bmw" rfl,
   claim6_amended.2 sampleCtxW connEmpty rowW4 rfl⟩

/-- Claim C6 counterexample: row W4 carries the raw car type `"suv"`, which
has no mapping entry but DOES exist in the `dwh.car_type` dimension (id 8).
If unmapped car types passed through as the claim asserts, the row would
resolve and insert; instead it is skipped and nothing is inserted.  By
contrast the same row's make `"bmw"` is also unmapped yet resolves fine —
row W1 (same make, mapped car type) completes with `.done`. -/
theorem claim6_counterexample :
    processRowW sampleCtxW connEmpty rowW4 = (connEmpty, .skipped) ∧
    lookup sampleDims.car_type (some rowW4.car_type) = some 8 ∧
    mappingGet sampleMapsW.make_mapping rowW4.make = none ∧
    (processRowW sampleCtxW connEmpty rowW1).2 = .done :=
  ⟨rfl, rfl, rfl, rfl⟩

/-- Claim C8 (amended): with `delete_from_staging=False` and no watermark a
run of either mover only reads its staging table — it is bit-for-bit
unchanged on every exit path.  With a watermark, no staging row is inserted
or deleted (the id list is preserved), but the run is NOT read-only: the
post-loop UPDATE rewrites the `last_synced` tracking column of NULL-or-newer
rows. -/
theorem claim8_amended :
    (∀ (ctx : CtxW) (now : Int) (conn : Conn), conn.committed = conn.pending →
      (move_data_to_dwh_willhaben ctx false none now conn).conn.pending.stagingW
        = conn.pending.stagingW ∧
      (move_data_to_dwh_willhaben ctx false none now conn).conn.committed.stagingW
        = conn.pending.stagingW) ∧
    (∀ (ctx : CtxW) (now w : Int) (conn : Conn), conn.committed = conn.pending →
      ((move_data_to_dwh_willhaben ctx false (some w) now conn).conn.pending.stagingW.map (·.id)
        = conn.pending.stagingW.map (·.id)) ∧
      ((move_data_to_dwh_willhaben ctx false (some w) now conn).conn.committed.stagingW.map (·.id)
        = conn.pending.stagingW.map (·.id))) ∧
    (∀ (ctx : CtxG) (now : Int) (conn : Conn), conn.committed = conn.pending →
      (move_data_to_dwh_gebrauchtwagen ctx false none now conn).conn.pending.stagingG
        = conn.pending.stagingG ∧
      (move_data_to_dwh_gebrauchtwagen ctx false none now conn).conn.committed.stagingG
        = conn.pending.stagingG) ∧
    (∀ (ctx : CtxG) (now w : Int) (conn : Conn), conn.committed = conn.pending →
      ((move_data_to_dwh_gebrauchtwagen ctx false (some w) now conn).conn.pending.stagingG.map
          (·.id) = conn.pending.stagingG.map (·.id)) ∧
      ((move_data_to_dwh_gebrauchtwagen ctx false (some w) now conn).conn.committed.stagingG.map
          (·.id) = conn.pending.stagingG.map (·.id))) :=
  ⟨moveW_staging_frame_none, moveW_staging_ids_some,
   moveG_staging_frame_none, moveG_staging_ids_some⟩

/-- Claim C8 witness: on one-row staging tables of both feeds, the
watermark-free runs leave staging untouched and the watermarked runs preserve
the row ids. -/
theorem claim8_witness :
    ((move_data_to_dwh_willhaben sampleCtxW false none 99 connW1).conn.pending.stagingW
        = connW1.pending.stagingW ∧
      (move_data_to_dwh_willhaben sampleCtxW false none 99 connW1).conn.committed.stagingW
        = connW1.pending.stagingW) ∧
    ((move_data_to_dwh_willhaben sampleCtxW false (some 3) 99 connW1).conn.pending.stagingW.map
        (·.id) = connW1.pending.stagingW.map (·.id) ∧
      (move_data_to_dwh_willhaben sampleCtxW false (some 3) 99 connW1).conn.committed.stagingW.map
        (·.id) = connW1.pending.stagingW.map (·.id)) ∧
    ((move_data_to_dwh_gebrauchtwagen sampleCtxG false none 99 connG1).conn.pending.stagingG
        = connG1.pending.stagingG ∧
      (move_data_to_dwh_gebrauchtwagen sampleCtxG false none 99 connG1).conn.committed.stagingG
        = connG1.pending.stagingG) ∧
    ((move_data_to_dwh_gebrauchtwagen sampleCtxG false (some 3) 99
          connG1).conn.pending.stagingG.map (·.id) = connG1.pending.stagingG.map (·.id) ∧
      (move_data_to_dwh_gebrauchtwagen sampleCtxG false (some 3) 99
          connG1).conn.committed.stagingG.map (·.id) = connG1.pending.stagingG.map (·.id)) :=
  ⟨claim8_amended.1 sampleCtxW 99 connW1 rfl,
   claim8_amended.2.1 sampleCtxW 99 3 connW1 rfl,
   claim8_amended.2.2.1 sampleCtxG 99 connG1 rfl,
   claim8_amended.2.2.2 sampleCtxG 99 3 connG1 rfl⟩

/-- Claim C8 counterexample: with `delete_from_staging=False` but a watermark
present, the run rewrites the staging row's `last_synced` column (10 becomes
the current time 99): the synchronizer does modify the staging table even
though the caller did not request deletion. -/
theorem claim8_counterexample :
    (move_data_to_dwh_willhaben sampleCtxW false (some 3) 99 connW1).conn.committed.stagingW
      = [{ rowW1 with last_synced := some 99 }] ∧
    rowW1.last_synced = some 10 :=
  ⟨rfl, rfl⟩

/-- Claim C10: the duplicate check matches on the external id column alone
(`willhaben_id` for the willhaben feed, `gw_guid` for the gebrauchtwagen
feed), never on the `(source_id, external_id)` pair: any fact row carrying the
external id — whatever its `source_id` — makes the staging row skip. -/
theorem claim10_dup_scope :
    (∀ (ctx : CtxW) (conn : Conn) (r0 : RowW) (f : FactRow),
      f ∈ conn.pending.willwagen → f.willhaben_id = some (ctx.transform r0).id →
      processRowW ctx conn r0 = (conn, .skipped)) ∧
    (∀ (ctx : CtxG) (conn : Conn) (r0 : RowG) (f : FactRow),
      f ∈ conn.pending.willwagen → f.gw_guid = some (ctx.transform r0).id →
      processRowG ctx conn r0 = (conn, .skipped)) := by
  constructor
  · intro ctx conn r0 f hf hid
    exact processRowW_dup_skip ctx conn r0 (mem_factWids.mpr ⟨f, hf, hid⟩)
  · intro ctx conn r0 f hf hid
    exact processRowG_dup_skip ctx conn r0 f hf hid

/-- Claim C10 witness: a willhaben run with `source_id = 1` skips W1 because a
fact row with `willhaben_id = "W1"` from an unrelated `source_id = 42`
already exists; the gebrauchtwagen analogue with `gw_guid` and foreign
`source_id = 9` behaves the same. -/
theorem claim10_witness :
    (processRowW sampleCtxW connDupW rowW1 = (connDupW, .skipped) ∧
      foreignFactW.source_id = 42 ∧ pyOrInt sampleCtxW.sourceId 1 = 1) ∧
    (processRowG sampleCtxG connDupG rowG1 = (connDupG, .skipped) ∧
      foreignFactG.source_id = 9 ∧ pyOrInt sampleCtxG.sourceId 2 = 2) :=
  ⟨⟨claim10_dup_scope.1 sampleCtxW connDupW rowW1 foreignFactW (by decide) rfl, rfl, rfl⟩,
   ⟨claim10_dup_scope.2 sampleCtxG connDupG rowG1 foreignFactG (by decide) rfl, rfl, rfl⟩⟩

end Oculus
